import Mathlib

/-!
Shallow embedding of `nototools/lint_config.py`: the lint-test selection
engine (tag catalog, font conditions, enable/disable selection blocks,
spec parsing, and per-font resolution), together with proofs settling the
specification claims about it.

Python sets are modelled as duplicate-free `List`s (`pyInsert` appends only
absent elements); Python dicts keyed by tag are modelled as functions to
`Option`; exceptions are modelled with `Except String`.
-/

set_option maxRecDepth 20000

deriving instance DecidableEq for Except

/-- Python whitespace characters (the `\s` class / `str.strip` default). -/
def isPySpace (c : Char) : Bool :=
  c == ' ' || c == '\t' || c == '\n' || c == '\x0d' || c == '\x0b' || c == '\x0c'

/-- Characters allowed in a catalog tag segment: `[a-z0-9_]`. -/
def isTagChar (c : Char) : Bool :=
  (('a' ≤ c) && (c ≤ 'z')) || (('0' ≤ c) && (c ≤ '9')) || c == '_'

/-- Split a character list on every occurrence of `sep` (Python `str.split(sep)`:
keeps empty parts, returns one more part than separators). -/
def splitOnChar (sep : Char) : List Char → List (List Char)
  | [] => [[]]
  | c :: cs =>
    let r := splitOnChar sep cs
    if c == sep then [] :: r
    else
      match r with
      | h :: t => (c :: h) :: t
      | [] => [[c]]

/-- Drop trailing characters satisfying `p`. -/
def dropTrailing (p : Char → Bool) (l : List Char) : List Char :=
  (l.reverse.dropWhile p).reverse

/-- Python `str.strip()`: remove leading and trailing whitespace. -/
def pyStrip (l : List Char) : List Char :=
  dropTrailing isPySpace (l.dropWhile isPySpace)

/-- Build a `String` back from a character list. -/
def chStr (l : List Char) : String := ⟨l⟩

/-- Python 2 byte-wise lexicographic `<=` on strings (used on indent runs). -/
def listLe : List Char → List Char → Bool
  | [], _ => true
  | _ :: _, [] => false
  | a :: as, b :: bs =>
    if a == b then listLe as bs else decide (a < b)

/-- Python `str.startswith`. -/
def pyStartsWith (s pre : String) : Bool :=
  pre.data.isPrefixOf s.data

/-- First index at which `pat` occurs in `t` (Python `str.find`, `some` form). -/
def firstMatchPos (pat : List Char) : List Char → Option Nat
  | [] => if pat.isEmpty then some 0 else none
  | c :: cs =>
    if pat.isPrefixOf (c :: cs) then some 0
    else (firstMatchPos pat cs).map (· + 1)

/-- The embedded tag-hierarchy description (`TestSpec.data` in the source),
copied verbatim: indentation encodes nesting, optional relation / arg-type
pattern tokens, optional comment after a double dash. -/
def TestSpec.data : String := "
  name -- name table tests
    copyright
    family
    subfamily
    full
    version
      hinted_suffix
      match_head
      out_of_range
      expected_pattern
    postscript
    trademark
    manufacturer
    designer
    description
    vendor_url
    designer_url
    license
    license_url
  cmap -- cmap table tests
    tables
      missing
      unexpected
      format_12_has_bmp
      format_4_subset_of_12
    required
    script_required except|only cp
    private_use
    non_characters
    disallowed_ascii
  head -- head table tests
    hhea
      ascent
      descent
      linegap
    vhea
      linegap
    os2
      fstype
      ascender
      descender
      linegap
      winascent
      windescent
      achvendid
      weight_class
      fsselection
      unicoderange
  bounds -- glyf limits etc
    glyph
      ui_ymax except|only cp|gid
      ui_ymin except|only cp|gid
      ymax except|only cp|gid
      ymin except|only cp|gid
    font
      ui_ymax
      ui_ymin
      ymax
      ymin
  paths -- outline tests
    extrema -- missing on-curve extrema
    intersection -- self-intersecting paths
  gdef -- gdef tests
    classdef
      not_present -- table is missing but there are mark glyphs
      unlisted -- mark glyph is present and expected to be listed
      combining_mismatch -- mark glyph is combining but not listed as combining
      not_combining_mismatch -- mark glyph is not combining but listed as combining
    attachlist
      duplicates
      out_of_order
    ligcaretlist
      not_present -- table is missing but there are ligatures
      not_ligature -- listed but not a ligature
      unlisted -- is a ligature but no caret
  complex -- gpos and gsub tests
    gpos
      missing
    gsub
      missing
  bidi -- tests bidi pairs, properties
    rtlm_non_mirrored -- rtlm GSUB feature applied to private-use or non-mirrored character
    ompl_rtlm -- rtlm GSUB feature applied to ompl char
    ompl_missing_pair -- ompl sibling not in cmap
    rtlm_unlisted -- non-ompl bidi char does not have rtlm GSUB feature
  hints
    unexpected_tables -- unhinted fonts shouldn't have hint tables
    missing_bytecode -- hinted tt fonts should have bytecodes
    unexpected_bytecode -- unhinted tt fonts should not have bytecodes
  advances
    digits -- checks that ASCII digits have same advance as digit zero
    comma_period -- checks that comma and period have same advance
    whitespace -- checks for expected advance relationships in whitespace
  stem -- stem widths
    left_joiner -- non-zero lsb
    right_joiner -- rsb not -70
  reachable
  "

/-- One parsed catalog line: leading indent, tag segment, optional
relation-pattern and arg-type-pattern tokens, optional comment. -/
structure DataLine where
  indent : List Char
  tagPart : List Char
  relation : Option (List Char)
  argType : Option (List Char)
  comment : Option (List Char)

/-- The tail of the catalog line regex, `\s*(?:--\s*(.+)\s*)?$`: optional
double-dash comment after whitespace.  (When the double dash is followed by
whitespace only, the regex backtracks to a whitespace comment; no line of
the embedded catalog text has that shape.) -/
def dataLineTail (r : List Char) : Option (Option (List Char)) :=
  let r1 := r.dropWhile isPySpace
  match r1 with
  | [] => some none
  | '-' :: '-' :: rest =>
    let r2 := rest.dropWhile isPySpace
    if r2.isEmpty then none else some (some r2)
  | _ => none

/-- Parse one catalog line following `_data_line_re`:
`(\s*)([a-z0-9_]+)(?:\s+([^\s]+)\s+([^\s]+))?\s*(?:--\s*(.+)\s*)?$`.
The optional relation/arg-type group is tried first (regex greediness) and
abandoned when the line tail does not then match. -/
def dataLineParse (line : List Char) : Option DataLine :=
  let indent := line.takeWhile isPySpace
  let rest0 := line.dropWhile isPySpace
  let tagPart := rest0.takeWhile isTagChar
  let rest1 := rest0.dropWhile isTagChar
  if tagPart.isEmpty then none
  else
    let tryPair : Option DataLine :=
      let w1 := rest1.takeWhile isPySpace
      let r1 := rest1.dropWhile isPySpace
      let tok1 := r1.takeWhile (fun c => !isPySpace c)
      let r2 := r1.dropWhile (fun c => !isPySpace c)
      let w2 := r2.takeWhile isPySpace
      let r3 := r2.dropWhile isPySpace
      let tok2 := r3.takeWhile (fun c => !isPySpace c)
      let r4 := r3.dropWhile (fun c => !isPySpace c)
      if w1.isEmpty || tok1.isEmpty || w2.isEmpty || tok2.isEmpty then none
      else
        match dataLineTail r4 with
        | some c => some ⟨indent, tagPart, some tok1, some tok2, c⟩
        | none => none
    match tryPair with
    | some dl => some dl
    | none =>
      match dataLineTail rest1 with
      | some c => some ⟨indent, tagPart, none, none, c⟩
      | none => none

/-- One catalog entry: full tag path with its
(relation-pattern, arg-type-pattern, comment) triple. -/
structure TagEntry where
  tag : String
  relation : Option String
  argType : Option String
  comment : Option String
deriving DecidableEq

/-- The indent-stack step of `TestSpec._process_data` for one parsed line.
The stack holds (indent, full-tag) frames; the base frame is the empty stack
(its Python indent is the int `0`, and in Python 2 a string never compares
`<=` an int, so the base frame is never popped and every line pushes). -/
def processLine (st : List (List Char × String) × List TagEntry) (dl : DataLine) :
    List (List Char × String) × List TagEntry :=
  let stack := (st.1).dropWhile (fun fr => listLe dl.indent fr.1)
  let parent := match stack with
    | [] => ""
    | fr :: _ => fr.2
  let tag := if parent == "" then chStr dl.tagPart else parent ++ "/" ++ chStr dl.tagPart
  ((dl.indent, tag) :: stack,
   st.2 ++ [⟨tag, dl.relation.map chStr, dl.argType.map chStr, dl.comment.map chStr⟩])

/-- `TestSpec._process_data`: build the tag hierarchy from the text
description; fails when a line does not match the line grammar. -/
def processData (data : String) : Except String (List TagEntry) :=
  (splitOnChar '\n' data.data).foldlM
    (fun st line =>
      if (pyStrip line).isEmpty then Except.ok st
      else
        match dataLineParse line with
        | none => Except.error ("failed to match line: " ++ chStr line)
        | some dl => Except.ok (processLine st dl))
    (([], []) : List (List Char × String) × List TagEntry)
  |>.map (·.2)

/-- `TestSpec.tag_data` (as the ordered entry list built by `_process_data`). -/
def TestSpec.tag_dataList : List TagEntry :=
  (processData TestSpec.data).toOption.getD []

/-- `TestSpec.tag_set`: the set of all catalog tags, as an ordered list. -/
def TestSpec.tag_list : List String :=
  TestSpec.tag_dataList.map (·.tag)

/-- Catalog lookup, `TestSpec.tag_data[tag]` (the catalog has no duplicate
tags, so first-match lookup agrees with the Python dict). -/
def TestSpec.tagDataLookup (tag : String) : Option TagEntry :=
  TestSpec.tag_dataList.find? (fun e => e.tag == tag)

/-- Python-set insertion (`set.add` / element step of `|=`): sets are
modelled as duplicate-free lists, inserting only absent elements. -/
def pyInsert {α : Type} [DecidableEq α] (l : List α) (x : α) : List α :=
  if x ∈ l then l else l ++ [x]

/-- Python set union `a | b` on the list model. -/
def pyUnion {α : Type} [DecidableEq α] (a b : List α) : List α :=
  b.foldl pyInsert a

/-- Python set difference `a - b` on the list model. -/
def pyDiff {α : Type} [DecidableEq α] (a b : List α) : List α :=
  a.filter (fun x => x ∉ b)

/-- Is `c` one of the two tag-path delimiter characters? -/
def isDelimCh (c : Char) : Bool := c == '/' || c == '_'

/-- The per-candidate test of the partial-tag search loop in
`TestSpec._get_tag_set`: the FIRST occurrence (`str.find`) of `tag` in `t`
must be bounded by `/` or `_` (or the string ends) on both sides. -/
def segMatchFirst (t tag : List Char) : Bool :=
  match firstMatchPos tag t with
  | none => false
  | some ix =>
    (ix == 0 || isDelimCh (t.getD (ix - 1) ' ')) &&
    (ix + tag.length == t.length || isDelimCh (t.getD (ix + tag.length) ' '))

/-- The unique-match accumulation loop of `TestSpec._get_tag_set`: scan the
catalog for candidates matching the partial tag, failing on a second match. -/
def findUniqueTag (tag : String) : List String → Option String → Except String (Option String)
  | [], acc => .ok acc
  | t :: rest, acc =>
    if segMatchFirst t.data tag.data then
      match acc with
      | some _ => .error ("multiple matches for partial tag " ++ tag)
      | none => findUniqueTag tag rest (some t)
    else findUniqueTag tag rest acc

/-- `TestSpec._get_tag_set`: resolve a (possibly partial) tag string to the
set of catalog tags in its scope. -/
def TestSpec._get_tag_set (tag : String) : Except String (List String) :=
  if tag ∈ TestSpec.tag_list then
    .ok (TestSpec.tag_list.filter (fun c => pyStartsWith c tag))
  else
    match findUniqueTag tag TestSpec.tag_list none with
    | .error e => .error e
    | .ok none => .error ("unknown tag: " ++ tag)
    | .ok (some t) => .ok (TestSpec.tag_list.filter (fun c => pyStartsWith c t))

/-- Value of one digit character in the given base (10 or 16, Python `int`). -/
def digitVal (base : Nat) (c : Char) : Option Nat :=
  if '0' ≤ c && c ≤ '9' then some (c.toNat - '0'.toNat)
  else if base == 16 && 'a' ≤ c && c ≤ 'f' then some (c.toNat - 'a'.toNat + 10)
  else if base == 16 && 'A' ≤ c && c ≤ 'F' then some (c.toNat - 'A'.toNat + 10)
  else none

/-- Accumulate a digit run; `none` on an invalid digit. -/
def digitsVal (base : Nat) (l : List Char) (acc : Nat) : Option Nat :=
  match l with
  | [] => some acc
  | c :: cs =>
    match digitVal base c with
    | some d => digitsVal base cs (acc * base + d)
    | none => none

/-- Model of Python `int(s, base)` for the token shapes reachable here: an
optional plus sign (a minus is routed to the range branch by the caller),
for base 16 an optional `0x` prefix, then a nonempty digit run. -/
def pyIntParse (base : Nat) (l : List Char) : Option Nat :=
  let l1 := match l with
    | '+' :: r => r
    | r => r
  let l2 := match l1 with
    | '0' :: 'x' :: r => if base == 16 then r else l1
    | '0' :: 'X' :: r => if base == 16 then r else l1
    | r => r
  if l2.isEmpty then none else digitsVal base l2 0

/-- The per-token step of `parse_int_values`, on state
(accumulated set, parsed-item count). -/
def parseIntStep (base : Nat) (st : List Nat × Nat) (val : List Char) :
    Except String (List Nat × Nat) :=
  if '-' ∈ val then
    match splitOnChar '-' val with
    | [a, b] =>
      match pyIntParse base a with
      | none => .error ("invalid literal for int: " ++ chStr a)
      | some lo =>
        match pyIntParse base b with
        | none => .error ("invalid literal for int: " ++ chStr b)
        | some hi =>
          if lo ≥ hi then .error "val range must have high > low"
          else .ok (pyUnion st.1 ((List.range (hi + 1 - lo)).map (lo + ·)), st.2 + (hi - lo + 1))
    | _ => .error ("could not parse range from " ++ chStr val)
  else
    match pyIntParse base val with
    | none => .error ("invalid literal for int: " ++ chStr val)
    | some v => .ok (pyInsert st.1 v, st.2 + 1)

/-- `parse_int_values`: a space-separated list of integers or `lo-hi` ranges
(base 16 when `is_hex`) into a set.  The final duplicate check compares the
parsed-item count with the set's cardinality.  (In the source that branch
formats its message with an undefined name `hexlist`, so Python raises a
NameError rather than the intended ValueError; the call fails either way.) -/
def parse_int_values (intlist : String) (is_hex : Bool) : Except String (List Nat) :=
  let base := if is_hex then 16 else 10
  match (splitOnChar ' ' intlist.data).foldlM (parseIntStep base) (([], 0) : List Nat × Nat) with
  | .error e => .error e
  | .ok (result, count) =>
    if result.length ≠ count then .error "duplicate values in intlist"
    else .ok result

/-- `IntSetFilter`: accept an int depending on membership and polarity. -/
structure IntSetFilter where
  accept_if_in : Bool
  intset : List Nat
deriving DecidableEq

/-- `IntSetFilter.accept`: `accept_if_in == (cp in intset)`. -/
def IntSetFilter.accept (f : IntSetFilter) (cp : Nat) : Bool :=
  f.accept_if_in == decide (cp ∈ f.intset)

/-- `FontInfo`: one font's metadata snapshot; every attribute may be absent. -/
structure FontInfo where
  filename : Option String := none
  name : Option String := none
  style : Option String := none
  script : Option String := none
  variant : Option String := none
  weight : Option String := none
  monospace : Option String := none
  hinted : Option String := none
  vendor : Option String := none
  version : Option String := none

/-- The six numeric relations of `FontCondition.fn_map` (both operands
coerced with `float()`). -/
inductive RelFn where
  | lt | le | eq | ne | ge | gt
deriving DecidableEq

/-- One stored constraint of a `FontCondition` field: a bare string (exact
match), or the (function, operand) pair built by `modify` — numeric with a
string operand, `is`, `in` with the operand split on commas, or `like` with
a compiled pattern. -/
inductive CondTest where
  | literal (s : String)
  | numRel (fn : RelFn) (operand : String)
  | isRel (operand : String)
  | inRel (alts : List String)
  | likeRel (pattern : String)
deriving DecidableEq

/-- Model of Python `float()` on finite decimal literals
(`[+-]? digits [. digits]? [(e|E) [+-]? digits]?`, at least one mantissa
digit).  Exotic accepted forms (`inf`, `nan`) are rejected by the model; no
claim depends on them. -/
def parseFloatQ (l : List Char) : Option ℚ :=
  let l1 := pyStrip l
  let sign : ℚ := match l1 with
    | '-' :: _ => -1
    | _ => 1
  let l2 := match l1 with
    | '-' :: r => r
    | '+' :: r => r
    | r => r
  let d1 := l2.takeWhile Char.isDigit
  let r1 := l2.dropWhile Char.isDigit
  let d2 := match r1 with
    | '.' :: r => r.takeWhile Char.isDigit
    | _ => []
  let r2 := match r1 with
    | '.' :: r => r.dropWhile Char.isDigit
    | _ => r1
  if d1.isEmpty && d2.isEmpty then none
  else
    let mant : ℚ := ((digitsVal 10 (d1 ++ d2) 0).getD 0 : ℚ) / ((10 : ℚ) ^ d2.length)
    match r2 with
    | [] => some (sign * mant)
    | e :: r3 =>
      if e == 'e' || e == 'E' then
        let esign : Int := match r3 with
          | '-' :: _ => -1
          | _ => 1
        let r4 := match r3 with
          | '-' :: r => r
          | '+' :: r => r
          | r => r
        if r4.isEmpty || !(r4.all Char.isDigit) then none
        else some (sign * mant * (10 : ℚ) ^ (esign * ((digitsVal 10 r4 0).getD 0 : Int)))
      else none

/-- Python `float()` applied to a possibly-absent attribute value: `None`
raises a TypeError, a non-numeric string a ValueError. -/
def pyFloat : Option String → Except String ℚ
  | none => .error "TypeError: float() argument must be a string or a number"
  | some s =>
    match parseFloatQ s.data with
    | some q => .ok q
    | none => .error ("could not convert string to float: " ++ s)

/-- Model of `re.search` for the metacharacter-free patterns stored by
`like` clauses: the pattern occurs somewhere in the string.  (No claim
depends on `like` matching.) -/
def reSearchLit (pattern s : String) : Bool :=
  (firstMatchPos pattern.data s.data).isSome

/-- Evaluate one `FontCondition` field against the font's attribute value,
mirroring the per-field body of `accepts`: a falsy slot (absent, or an empty
literal) is skipped; a string slot is an exact-equality test (a missing
attribute never equals it); a pair slot applies its relation function, which
can raise for the numeric relations (float coercion) and for `like` on a
missing value. -/
def FontCondition.evalSlot (slot : Option CondTest) (val : Option String) : Except String Bool :=
  match slot with
  | none => .ok true
  | some (.literal s) => if s.isEmpty then .ok true else .ok (val == some s)
  | some (.isRel rhs) => .ok (val == some rhs)
  | some (.inRel alts) =>
    .ok (match val with
      | some v => decide (v ∈ alts)
      | none => false)
  | some (.likeRel pat) =>
    match val with
    | none => .error "TypeError: expected string or buffer"
    | some v => .ok (reSearchLit pat v)
  | some (.numRel fn rhs) =>
    match pyFloat val with
    | .error e => .error e
    | .ok lq =>
      match pyFloat (some rhs) with
      | .error e => .error e
      | .ok rq =>
        .ok (match fn with
          | .lt => decide (lq < rq)
          | .le => decide (lq ≤ rq)
          | .eq => decide (lq = rq)
          | .ne => decide (lq ≠ rq)
          | .ge => decide (rq ≤ lq)
          | .gt => decide (rq < lq))

/-- `FontCondition`: nine optional per-attribute constraints, conjunctive. -/
structure FontCondition where
  filename : Option CondTest := none
  name : Option CondTest := none
  style : Option CondTest := none
  script : Option CondTest := none
  variant : Option CondTest := none
  weight : Option CondTest := none
  hinted : Option CondTest := none
  vendor : Option CondTest := none
  version : Option CondTest := none
deriving DecidableEq

/-- The field loop of `FontCondition.accepts`, over (slot, value) pairs in
source order, short-circuiting on the first rejecting field. -/
def acceptsFields : List (Option CondTest × Option String) → Except String Bool
  | [] => .ok true
  | (slot, val) :: rest =>
    match FontCondition.evalSlot slot val with
    | .error e => .error e
    | .ok b => if b then acceptsFields rest else .ok false

/-- `FontCondition.accepts`: the conjunction over the nine fields
(`monospace` is not conditioned on). -/
def FontCondition.accepts (fc : FontCondition) (fi : FontInfo) : Except String Bool :=
  acceptsFields
    [(fc.filename, fi.filename), (fc.name, fi.name), (fc.style, fi.style),
     (fc.script, fi.script), (fc.variant, fi.variant), (fc.weight, fi.weight),
     (fc.hinted, fi.hinted), (fc.vendor, fi.vendor), (fc.version, fi.version)]

/-- The nine condition-field names accepted by `FontCondition.modify`. -/
def FontCondition.fieldNames : List String :=
  ["filename", "name", "style", "script", "variant", "weight", "hinted", "vendor", "version"]

/-- Store a slot into the named `FontCondition` field. -/
def FontCondition.setField (fc : FontCondition) (name : String) (v : Option CondTest) : FontCondition :=
  if name == "filename" then { fc with filename := v }
  else if name == "name" then { fc with name := v }
  else if name == "style" then { fc with style := v }
  else if name == "script" then { fc with script := v }
  else if name == "variant" then { fc with variant := v }
  else if name == "weight" then { fc with weight := v }
  else if name == "hinted" then { fc with hinted := v }
  else if name == "vendor" then { fc with vendor := v }
  else if name == "version" then { fc with version := v }
  else fc

/-- `FontCondition.modify`: unknown field names fail; `*` clears the field;
with no (or a falsy) operand the relation token itself is stored as a
literal; otherwise the relation token is looked up in `fn_map` (an unknown
name raises — modelled as an error), with `in` operands split on commas and
`like` operands compiled. -/
def FontCondition.modify (fc : FontCondition) (condition_name fn_name : String)
    (value : Option String) : Except String FontCondition :=
  if condition_name ∉ FontCondition.fieldNames then
    .error ("FontCondition does not recognize: " ++ condition_name)
  else if fn_name == "*" then .ok (fc.setField condition_name none)
  else
    match value with
    | none => .ok (fc.setField condition_name (some (.literal fn_name)))
    | some v =>
      if v.isEmpty then .ok (fc.setField condition_name (some (.literal fn_name)))
      else if fn_name == "<" then .ok (fc.setField condition_name (some (.numRel .lt v)))
      else if fn_name == "<=" then .ok (fc.setField condition_name (some (.numRel .le v)))
      else if fn_name == "==" then .ok (fc.setField condition_name (some (.numRel .eq v)))
      else if fn_name == "!=" then .ok (fc.setField condition_name (some (.numRel .ne v)))
      else if fn_name == ">=" then .ok (fc.setField condition_name (some (.numRel .ge v)))
      else if fn_name == ">" then .ok (fc.setField condition_name (some (.numRel .gt v)))
      else if fn_name == "is" then .ok (fc.setField condition_name (some (.isRel v)))
      else if fn_name == "in" then
        .ok (fc.setField condition_name (some (.inRel ((splitOnChar ',' v.data).map chStr))))
      else if fn_name == "like" then .ok (fc.setField condition_name (some (.likeRel v)))
      else .error ("KeyError: " ++ fn_name)

/-- Is `c` neither a space nor a tab (the `[^ \t]` class of `line_re`)? -/
def notSpaceTab (c : Char) : Bool := !(c == ' ' || c == '\t')

/-- `FontCondition.modify_line`: split a condition clause on
`([^ \t]+)\s+([^ \t]+)(.*)?`, null out a whitespace-only operand, and apply
`modify`.  (An empty third group is falsy in Python and is passed along as
no operand.) -/
def FontCondition.modify_line (fc : FontCondition) (line : String) : Except String FontCondition :=
  let l := pyStrip line.data
  let g1 := l.takeWhile notSpaceTab
  let r1 := l.dropWhile notSpaceTab
  let w1 := r1.takeWhile isPySpace
  let r2 := r1.dropWhile isPySpace
  let g2 := r2.takeWhile notSpaceTab
  let r3 := r2.dropWhile notSpaceTab
  if g1.isEmpty || w1.isEmpty || g2.isEmpty then
    .error ("FontCondition could not match " ++ chStr l)
  else
    let value :=
      if r3.isEmpty then none
      else
        let s := pyStrip r3
        if s.isEmpty then none else some (chStr s)
    fc.modify (chStr g1) (chStr g2) value

/-- `TestSpec`: one rule block's accumulated touched/enabled tags and
per-tag filters (the dict modelled as a function). -/
structure TestSpec where
  touched_tags : List String := []
  enabled_tags : List String := []
  tag_options : String → Option IntSetFilter := fun _ => none

/-- Model of `re.match(pattern, s)` for the catalog's relation and arg-type
patterns, which are all alternations of plain literals (`except|only`,
`cp|gid`, `cp`): some alternative is a prefix of `s`. -/
def reMatchAlt (pattern s : String) : Bool :=
  (splitOnChar '|' pattern.data).any (fun alt => alt.isPrefixOf s.data)

/-- `TestSpec._set_enable_options`: validate the relation and arg-type
against the tag's catalog patterns and store an `IntSetFilter` whose
polarity is accept-if-member unless the relation word is `except`.
`cp` arguments parse as hex, `gid` as decimal. -/
def TestSpec._set_enable_options (ts : TestSpec) (tag rel : String)
    (argType arg : Option String) : Except String TestSpec :=
  match TestSpec.tagDataLookup tag with
  | none => .error ("KeyError: " ++ tag)
  | some entry =>
    match entry.relation with
    | none => .error ("tag " ++ tag ++ " does not allow options")
    | some relPat =>
      if !(reMatchAlt relPat rel) then
        .error ("tag " ++ tag ++ " does not allow relation " ++ rel)
      else
        match entry.argType, argType with
        | none, _ => .error "TypeError: arg-type pattern is None"
        | _, none => .error "TypeError: arg type is None"
        | some argPat, some atype =>
          if !(reMatchAlt argPat atype) then
            .error ("tag " ++ tag ++ " and relation " ++ rel ++ " does not allow arg type " ++ atype)
          else if atype == "cp" || atype == "gid" then
            match arg with
            | none => .error "TypeError: arg is None"
            | some a =>
              match parse_int_values a (atype == "cp") with
              | .error e => .error e
              | .ok int_set =>
                .ok { ts with tag_options := fun t =>
                  if t == tag then some ⟨rel != "except", int_set⟩ else ts.tag_options t }
          else .error ("illegal state - unable to handle recognized arg_type " ++ atype)

/-- `TestSpec.enable`: resolve the scope; with a relation the scope must be
a single tag, whose options are stored; every scope tag joins both
`touched_tags` and `enabled_tags`. -/
def TestSpec.enable (ts : TestSpec) (tag : String)
    (relation argType arg : Option String) : Except String TestSpec :=
  match TestSpec._get_tag_set tag with
  | .error e => .error e
  | .ok tags =>
    match relation with
    | some rel =>
      if tags.length > 1 then .error "options cannot be applied to multiple tags"
      else
        match ts._set_enable_options (tags.headD "") rel argType arg with
        | .error e => .error e
        | .ok ts1 =>
          .ok { ts1 with touched_tags := pyUnion ts1.touched_tags tags,
                         enabled_tags := pyUnion ts1.enabled_tags tags }
    | none =>
      .ok { ts with touched_tags := pyUnion ts.touched_tags tags,
                    enabled_tags := pyUnion ts.enabled_tags tags }

/-- Is `c` in the `[0-9a-z/_]` class of `tag_rx`? -/
def isTagRxChar (c : Char) : Bool := isTagChar c || c == '/'

/-- `TestSpec.enable_tag`: parse one enable clause with `tag_rx`
(`\s*([0-9a-z/_]+)(?:\s+(except|only)\s+(cp|gid)\s+(.*))?\s*$`) and feed it
to `enable`.  (The source's failure branch references an undefined name
`tag_spec`, raising a NameError; the call fails either way.) -/
def TestSpec.enable_tag (ts : TestSpec) (tag_seg : String) : Except String TestSpec :=
  let l1 := tag_seg.data.dropWhile isPySpace
  let g1 := l1.takeWhile isTagRxChar
  let r1 := l1.dropWhile isTagRxChar
  if g1.isEmpty then .error ("TestSpec could not parse " ++ tag_seg)
  else if r1.all isPySpace then ts.enable (chStr g1) none none none
  else
    let w1 := r1.takeWhile isPySpace
    let r2 := r1.dropWhile isPySpace
    let tok2 := r2.takeWhile (fun c => !isPySpace c)
    let r3 := r2.dropWhile (fun c => !isPySpace c)
    let w2 := r3.takeWhile isPySpace
    let r4 := r3.dropWhile isPySpace
    let tok3 := r4.takeWhile (fun c => !isPySpace c)
    let r5 := r4.dropWhile (fun c => !isPySpace c)
    let w3 := r5.takeWhile isPySpace
    let r6 := r5.dropWhile isPySpace
    if w1.isEmpty || !(chStr tok2 == "except" || chStr tok2 == "only")
        || w2.isEmpty || !(chStr tok3 == "cp" || chStr tok3 == "gid")
        || w3.isEmpty then
      .error ("TestSpec could not parse " ++ tag_seg)
    else ts.enable (chStr g1) (some (chStr tok2)) (some (chStr tok3)) (some (chStr r6))

/-- `TestSpec.disable`: resolve the scope, add it to `touched_tags` and
remove it from `enabled_tags`. -/
def TestSpec.disable (ts : TestSpec) (tag : String) : Except String TestSpec :=
  match TestSpec._get_tag_set tag with
  | .error e => .error e
  | .ok tags =>
    .ok { ts with touched_tags := pyUnion ts.touched_tags tags,
                  enabled_tags := pyDiff ts.enabled_tags tags }

/-- `TestSpec.apply_spec`: fold one block onto the running result —
`result := (result - touched) | enabled`; filters of touched tags are
popped, then the block's filters are stored for its enabled tags. -/
def TestSpec.apply_spec (ts : TestSpec) (result : List String)
    (options : String → Option IntSetFilter) : List String × (String → Option IntSetFilter) :=
  let result1 := pyUnion (pyDiff result ts.touched_tags) ts.enabled_tags
  let options1 := fun t => if t ∈ ts.touched_tags then none else options t
  let options2 := fun t =>
    if t ∈ ts.enabled_tags then
      match ts.tag_options t with
      | some f => some f
      | none => options1 t
    else options1 t
  (result1, options2)

/-- `LintTests`: the resolved enabled set and filters for one font, with
run/skip audit logs. -/
structure LintTests where
  tag_set : List String
  tag_filters : String → Option IntSetFilter
  run_log : List String := []
  skip_log : List String := []

/-- `LintTests.get_filter`: catalog-unknown tags fail. -/
def LintTests.get_filter (lt : LintTests) (tag : String) : Except String (Option IntSetFilter) :=
  if tag ∉ TestSpec.tag_list then .error ("unrecognized tag " ++ tag)
  else .ok (lt.tag_filters tag)

/-- `LintTests.check`: catalog-unknown tags fail; otherwise return
membership in the resolved set and log the tag as run or skipped. -/
def LintTests.check (lt : LintTests) (tag : String) : Except String (Bool × LintTests) :=
  if tag ∉ TestSpec.tag_list then .error ("unrecognized tag " ++ tag)
  else if tag ∈ lt.tag_set then .ok (true, { lt with run_log := pyInsert lt.run_log tag })
  else .ok (false, { lt with skip_log := pyInsert lt.skip_log tag })

/-- `LintTests.checkvalue`: as `check`, additionally consulting the tag's
filter when one is stored. -/
def LintTests.checkvalue (lt : LintTests) (tag : String) (value : Nat) :
    Except String (Bool × LintTests) :=
  match lt.check tag with
  | .error e => .error e
  | .ok (run, lt1) =>
    if run then
      match lt1.tag_filters tag with
      | some f => .ok (f.accept value, lt1)
      | none => .ok (run, lt1)
    else .ok (run, lt1)

/-- `LintSpec`: the ordered rule list of (condition, selection) blocks. -/
structure LintSpec where
  specs : List (FontCondition × TestSpec) := []

/-- `LintSpec.add_spec`. -/
def LintSpec.add_spec (ls : LintSpec) (c : FontCondition) (t : TestSpec) : LintSpec :=
  { specs := ls.specs ++ [(c, t)] }

/-- The fold of `LintSpec.get_tests` over the rule blocks, applying each
block whose condition accepts the font (condition errors propagate). -/
def applyAccepted (fi : FontInfo) :
    List (FontCondition × TestSpec) → List String × (String → Option IntSetFilter) →
    Except String (List String × (String → Option IntSetFilter))
  | [], st => .ok st
  | (cond, spec) :: rest, st =>
    match cond.accepts fi with
    | .error e => .error e
    | .ok b => applyAccepted fi rest (if b then spec.apply_spec st.1 st.2 else st)

/-- `LintSpec.get_tests`: start from the full catalog with no filters and
fold every accepted block in order. -/
def LintSpec.get_tests (ls : LintSpec) (fi : FontInfo) : Except String LintTests :=
  match applyAccepted fi ls.specs (TestSpec.tag_list, fun _ => none) with
  | .error e => .error e
  | .ok st => .ok { tag_set := st.1, tag_filters := st.2 }

/-- Parser state of `parse_spec`: rule list so far, current condition and
selection block, and whether the current block has recorded any directive. -/
structure ParseState where
  lint : LintSpec := {}
  cond : FontCondition := {}
  ts : TestSpec := {}
  have_test : Bool := false

/-- Process one `;`-separated segment of a spec line. -/
def processSegment (st : ParseState) (seg : List Char) : Except String ParseState :=
  let segment := pyStrip seg
  if chStr segment == "condition" then
    if st.have_test then
      .ok { lint := st.lint.add_spec st.cond st.ts, cond := {}, ts := {}, have_test := false }
    else .ok { st with cond := {} }
  else if "enable ".data.isPrefixOf segment then
    match (splitOnChar ',' (segment.drop 7)).foldlM
        (fun ts s => TestSpec.enable_tag ts (chStr (pyStrip s))) st.ts with
    | .error e => .error e
    | .ok ts1 => .ok { st with ts := ts1, have_test := true }
  else if "disable ".data.isPrefixOf segment then
    match (splitOnChar ',' (segment.drop 8)).foldlM
        (fun ts s => TestSpec.disable ts (chStr (pyStrip s))) st.ts with
    | .error e => .error e
    | .ok ts1 => .ok { st with ts := ts1, have_test := true }
  else
    let st1 :=
      if st.have_test then
        { lint := st.lint.add_spec st.cond st.ts, cond := st.cond,
          ts := ({} : TestSpec), have_test := false }
      else st
    match st1.cond.modify_line (chStr segment) with
    | .error e => .error e
    | .ok c => .ok { st1 with cond := c }

/-- Process one spec line: cut at `#`, strip, skip blanks, then process its
`;`-separated segments. -/
def processSpecLine (st : ParseState) (line : List Char) : Except String ParseState :=
  let line1 := line.takeWhile (fun c => c != '#')
  let line2 := pyStrip line1
  if line2.isEmpty then .ok st
  else (splitOnChar ';' line2).foldlM processSegment st

/-- `parse_spec`: build a rule list from spec text; a trailing unflushed
block is appended at end of input. -/
def parse_spec (spec : String) : Except String LintSpec :=
  if spec.isEmpty then .ok {}
  else
    match (splitOnChar '\n' spec.data).foldlM processSpecLine ({} : ParseState) with
    | .error e => .error e
    | .ok st =>
      if st.have_test then .ok (st.lint.add_spec st.cond st.ts) else .ok st.lint

/-- The catalog tag list written out explicitly (proved equal to
`TestSpec.tag_list` below); concrete proofs decide against this literal so
the kernel parses the catalog text only once. -/
def tagListLit : List String :=
  ["name",
   "name/copyright",
   "name/family",
   "name/subfamily",
   "name/full",
   "name/version",
   "name/version/hinted_suffix",
   "name/version/match_head",
   "name/version/out_of_range",
   "name/version/expected_pattern",
   "name/postscript",
   "name/trademark",
   "name/manufacturer",
   "name/designer",
   "name/description",
   "name/vendor_url",
   "name/designer_url",
   "name/license",
   "name/license_url",
   "cmap",
   "cmap/tables",
   "cmap/tables/missing",
   "cmap/tables/unexpected",
   "cmap/tables/format_12_has_bmp",
   "cmap/tables/format_4_subset_of_12",
   "cmap/required",
   "cmap/script_required",
   "cmap/private_use",
   "cmap/non_characters",
   "cmap/disallowed_ascii",
   "head",
   "head/hhea",
   "head/hhea/ascent",
   "head/hhea/descent",
   "head/hhea/linegap",
   "head/vhea",
   "head/vhea/linegap",
   "head/os2",
   "head/os2/fstype",
   "head/os2/ascender",
   "head/os2/descender",
   "head/os2/linegap",
   "head/os2/winascent",
   "head/os2/windescent",
   "head/os2/achvendid",
   "head/os2/weight_class",
   "head/os2/fsselection",
   "head/os2/unicoderange",
   "bounds",
   "bounds/glyph",
   "bounds/glyph/ui_ymax",
   "bounds/glyph/ui_ymin",
   "bounds/glyph/ymax",
   "bounds/glyph/ymin",
   "bounds/font",
   "bounds/font/ui_ymax",
   "bounds/font/ui_ymin",
   "bounds/font/ymax",
   "bounds/font/ymin",
   "paths",
   "paths/extrema",
   "paths/intersection",
   "gdef",
   "gdef/classdef",
   "gdef/classdef/not_present",
   "gdef/classdef/unlisted",
   "gdef/classdef/combining_mismatch",
   "gdef/classdef/not_combining_mismatch",
   "gdef/attachlist",
   "gdef/attachlist/duplicates",
   "gdef/attachlist/out_of_order",
   "gdef/ligcaretlist",
   "gdef/ligcaretlist/not_present",
   "gdef/ligcaretlist/not_ligature",
   "gdef/ligcaretlist/unlisted",
   "complex",
   "complex/gpos",
   "complex/gpos/missing",
   "complex/gsub",
   "complex/gsub/missing",
   "bidi",
   "bidi/rtlm_non_mirrored",
   "bidi/ompl_rtlm",
   "bidi/ompl_missing_pair",
   "bidi/rtlm_unlisted",
   "hints",
   "hints/unexpected_tables",
   "hints/missing_bytecode",
   "hints/unexpected_bytecode",
   "advances",
   "advances/digits",
   "advances/comma_period",
   "advances/whitespace",
   "stem",
   "stem/left_joiner",
   "stem/right_joiner",
   "reachable"]

/-- The length-`L` slice of `t` starting at `j`. -/
def sliceL (t : List Char) (j L : Nat) : List Char := (t.drop j).take L

/-- Are positions `j-1` and `j+L` of `t` tag delimiters (or the ends)? -/
def boundsOK (t : List Char) (j L : Nat) : Bool :=
  (j == 0 || isDelimCh (t.getD (j - 1) ' ')) &&
  (j + L == t.length || isDelimCh (t.getD (j + L) ' '))

/-- `s` occurs in `t` as a `/`- or `_`-delimited segment at SOME position —
the specification's notion of partial-tag containment (the code checks only
the first occurrence; the two are proved to agree on every catalog tag). -/
def delimOccB (t s : List Char) : Bool :=
  (List.range (t.length + 1)).any (fun j =>
    decide (j + s.length ≤ t.length) && (sliceL t j s.length == s) && boundsOK t j s.length)

/-- All delimiter-bounded slices of `t` (every string with a delimited
occurrence in `t` is one of these). -/
def delimSlices (t : List Char) : List (List Char) :=
  (((List.range (t.length + 1)).flatMap (fun j =>
      (List.range (t.length + 1 - j)).map (fun L => (j, L)))).filter
    (fun p => boundsOK t p.1 p.2)).map (fun p => sliceL t p.1 p.2)

/-- The set of ints one token of `parse_int_values` denotes: a range token
covers `lo..hi` inclusive, a literal token its own value. -/
def tokMembers (base : Nat) (tok : List Char) (n : Nat) : Bool :=
  if '-' ∈ tok then
    match splitOnChar '-' tok with
    | [a, b] =>
      match pyIntParse base a, pyIntParse base b with
      | some lo, some hi => decide (lo ≤ n) && decide (n ≤ hi)
      | _, _ => false
    | _ => false
  else pyIntParse base tok == some n

/-- The proper `/`-prefixes of a tag (join of the first `k` segments for
`0 < k <` segment count). -/
def slashPrefixes (t : String) : List String :=
  let segs := splitOnChar '/' t.data
  (List.range segs.length).tail.map (fun k => chStr (List.intercalate ['/'] (segs.take k)))

/-- A condition slot that can never raise during `accepts`: absent, a
literal, an `is` relation, or an `in` relation (numeric relations coerce
with `float()` and `like` needs a string, either of which can raise). -/
def slotSafe : Option CondTest → Bool
  | none => true
  | some (.literal _) => true
  | some (.isRel _) => true
  | some (.inRel _) => true
  | some (.likeRel _) => false
  | some (.numRel _ _) => false

/-- All nine slots of the condition are safe. -/
def FontCondition.condSafe (fc : FontCondition) : Bool :=
  slotSafe fc.filename && slotSafe fc.name && slotSafe fc.style && slotSafe fc.script &&
  slotSafe fc.variant && slotSafe fc.weight && slotSafe fc.hinted && slotSafe fc.vendor &&
  slotSafe fc.version

/-- One audit call on a `LintTests` instance. -/
inductive AuditOp where
  | check (tag : String)
  | checkvalue (tag : String) (value : Nat)

/-- Run a sequence of audit calls, threading the instance. -/
def runAudit : LintTests → List AuditOp → Except String LintTests
  | lt, [] => .ok lt
  | lt, .check tag :: rest =>
    match lt.check tag with
    | .error e => .error e
    | .ok (_, lt1) => runAudit lt1 rest
  | lt, .checkvalue tag value :: rest =>
    match lt.checkvalue tag value with
    | .error e => .error e
    | .ok (_, lt1) => runAudit lt1 rest

/-- One selection directive applied to a `TestSpec` block. -/
inductive SelOp where
  | enable (tag : String) (relation argType arg : Option String)
  | disable (tag : String)

/-- Run a sequence of enable/disable directives, threading the block. -/
def runSelOps : TestSpec → List SelOp → Except String TestSpec
  | ts, [] => .ok ts
  | ts, .enable tag r a g :: rest =>
    match ts.enable tag r a g with
    | .error e => .error e
    | .ok ts1 => runSelOps ts1 rest
  | ts, .disable tag :: rest =>
    match ts.disable tag with
    | .error e => .error e
    | .ok ts1 => runSelOps ts1 rest

/-- The end-to-end scenario spec text of the claim (C2), verbatim. -/
def c2text : String :=
  "disable reachable\ncondition\nvendor == \"Foo\"; enable name/version\ncondition\nscript == \"Deva\"; disable name"

/-- The claim's font: vendor `Foo`, script `Deva`. -/
def c2font : FontInfo := { vendor := some "Foo", script := some "Deva" }

/-- The scenario with `is` (string equality) in place of the
float-coercing `==`, so that resolution can succeed. -/
def c2textAmended : String :=
  "disable reachable\ncondition\nvendor is \"Foo\"; enable name/version\ncondition\nscript is \"Deva\"; disable name"

/-- A font whose attributes carry the quoted literals the `is` conditions
store (the parser does not strip quotes). -/
def c2fontAmended : FontInfo := { vendor := some "\"Foo\"", script := some "\"Deva\"" }

/-- A spec text that parses successfully but whose numeric condition
coerces the font's version with `float()` at resolve time. -/
def c3text : String := "version == 2.0; enable name"

/-- A font with a non-numeric version attribute. -/
def c3font : FontInfo := { version := some "abc" }

/-- A rule list built from a spec using only `is` conditions (safe slots). -/
def c3SafeLs : LintSpec :=
  (parse_spec "vendor is Foo; enable name").toOption.getD {}

theorem mem_pyInsert {α : Type} [DecidableEq α] (l : List α) (x a : α) :
    a ∈ pyInsert l x ↔ a ∈ l ∨ a = x := by
  unfold pyInsert
  split
  · constructor
    · exact Or.inl
    · rintro (h1 | rfl)
      · exact h1
      · assumption
  · simp [List.mem_append]

theorem mem_pyUnion {α : Type} [DecidableEq α] (a b : List α) (x : α) :
    x ∈ pyUnion a b ↔ x ∈ a ∨ x ∈ b := by
  induction b generalizing a with
  | nil => simp [pyUnion]
  | cons h t ih =>
    have he : pyUnion a (h :: t) = pyUnion (pyInsert a h) t := rfl
    rw [he, ih, mem_pyInsert]
    simp [List.mem_cons]
    tauto

theorem mem_pyDiff {α : Type} [DecidableEq α] (a b : List α) (x : α) :
    x ∈ pyDiff a b ↔ x ∈ a ∧ x ∉ b := by
  simp [pyDiff, List.mem_filter]

/-- The catalog built from the embedded description equals the literal. -/
theorem tag_list_eq : TestSpec.tag_list = tagListLit := by decide

theorem tagList_nodup : TestSpec.tag_list.Nodup := by
  rw [tag_list_eq]; decide

/-- `_set_enable_options` changes only the filter map, never the tag sets. -/
theorem set_enable_options_fields (ts ts1 : TestSpec) (t rel : String) (a g : Option String)
    (h : ts._set_enable_options t rel a g = .ok ts1) :
    ts1.touched_tags = ts.touched_tags ∧ ts1.enabled_tags = ts.enabled_tags := by
  unfold TestSpec._set_enable_options at h
  repeat' split at h
  all_goals simp_all
  all_goals (cases h; simp)

/-- A successful `enable` preserves `enabled ⊆ touched`. -/
theorem enable_preserves_inv (ts ts' : TestSpec) (tag : String) (r a g : Option String)
    (hinv : ts.enabled_tags ⊆ ts.touched_tags) (h : ts.enable tag r a g = .ok ts') :
    ts'.enabled_tags ⊆ ts'.touched_tags := by
  unfold TestSpec.enable at h
  cases hg : TestSpec._get_tag_set tag with
  | error e => rw [hg] at h; simp at h
  | ok tags =>
    rw [hg] at h
    cases r with
    | none =>
      dsimp only at h
      cases h
      intro x hx
      rw [mem_pyUnion] at hx ⊢
      exact hx.imp (fun h1 => hinv h1) id
    | some rel =>
      dsimp only at h
      split at h
      · cases h
      · cases hs : ts._set_enable_options (tags.headD "") rel a g with
        | error e => rw [hs] at h; simp at h
        | ok ts1 =>
          rw [hs] at h
          dsimp only at h
          cases h
          obtain ⟨ht, he⟩ := set_enable_options_fields ts ts1 _ _ _ _ hs
          intro x hx
          simp only [mem_pyUnion, he, ht] at hx ⊢
          exact hx.imp (fun h1 => hinv h1) id

/-- A successful `disable` preserves `enabled ⊆ touched`. -/
theorem disable_preserves_inv (ts ts' : TestSpec) (tag : String)
    (hinv : ts.enabled_tags ⊆ ts.touched_tags) (h : ts.disable tag = .ok ts') :
    ts'.enabled_tags ⊆ ts'.touched_tags := by
  unfold TestSpec.disable at h
  cases hg : TestSpec._get_tag_set tag with
  | error e => rw [hg] at h; cases h
  | ok tags =>
    rw [hg] at h
    cases h
    intro x hx
    rw [mem_pyDiff] at hx
    rw [mem_pyUnion]
    exact Or.inl (hinv hx.1)

/-- C8: after every sequence of successful enable/disable directives on a
block satisfying `enabled_tags ⊆ touched_tags` (in particular a freshly
constructed block, whose sets are both empty), the invariant
`enabled_tags ⊆ touched_tags` still holds; a touched-but-not-enabled tag is
one the block explicitly disabled. -/
theorem C8_enabled_subset_touched (ts : TestSpec) (ops : List SelOp) (ts' : TestSpec)
    (hinv : ts.enabled_tags ⊆ ts.touched_tags) (h : runSelOps ts ops = .ok ts') :
    ts'.enabled_tags ⊆ ts'.touched_tags := by
  induction ops generalizing ts with
  | nil => cases h; exact hinv
  | cons op rest ih =>
    cases op with
    | enable tag r a g =>
      unfold runSelOps at h
      cases he : ts.enable tag r a g with
      | error e => rw [he] at h; cases h
      | ok ts1 =>
        rw [he] at h
        exact ih ts1 (enable_preserves_inv ts ts1 tag r a g hinv he) h
    | disable tag =>
      unfold runSelOps at h
      cases he : ts.disable tag with
      | error e => rw [he] at h; cases h
      | ok ts1 =>
        rw [he] at h
        exact ih ts1 (disable_preserves_inv ts ts1 tag hinv he) h

theorem C8_witness :
    (({} : TestSpec).enabled_tags ⊆ ({} : TestSpec).touched_tags) ∧
    (∀ ts', runSelOps {} [.enable "cmap" none none none, .disable "reachable"] = .ok ts' →
      ts'.enabled_tags ⊆ ts'.touched_tags) :=
  ⟨by simp, fun ts' h => C8_enabled_subset_touched {} _ ts' (by simp) h⟩

/-- C9: the catalog is prefix-closed — every proper `/`-prefix of a catalog
tag is itself a catalog tag. -/
theorem C9_catalog_prefix_closed :
    ∀ t ∈ TestSpec.tag_list, ∀ p ∈ slashPrefixes t, p ∈ TestSpec.tag_list := by
  rw [tag_list_eq]
  decide

theorem C9_witness : "cmap/tables" ∈ TestSpec.tag_list :=
  C9_catalog_prefix_closed "cmap/tables/missing" (by rw [tag_list_eq]; decide)
    "cmap/tables" (by decide)

/-- One token step of `parse_int_values` adds exactly the token's denoted
ints to the accumulated set. -/
theorem parseIntStep_mem (base : Nat) (st : List Nat × Nat) (tok : List Char)
    (st' : List Nat × Nat) (h : parseIntStep base st tok = .ok st') :
    ∀ n, n ∈ st'.1 ↔ n ∈ st.1 ∨ tokMembers base tok n = true := by
  intro n
  unfold parseIntStep at h
  by_cases hd : '-' ∈ tok
  · rw [if_pos hd] at h
    rcases hsp : splitOnChar '-' tok with _ | ⟨a, _ | ⟨b, _ | ⟨c, tl⟩⟩⟩ <;>
        simp only [hsp] at h
    · cases h
    · cases h
    · cases hpa : pyIntParse base a with
      | none => simp only [hpa] at h; cases h
      | some lo =>
        cases hpb : pyIntParse base b with
        | none => simp only [hpa, hpb] at h; cases h
        | some hi =>
          simp only [hpa, hpb] at h
          split at h
          · cases h
          · cases h
            have ht : tokMembers base tok n = (decide (lo ≤ n) && decide (n ≤ hi)) := by
              unfold tokMembers
              rw [if_pos hd, hsp]
              simp only [hpa, hpb]
            rw [ht]
            dsimp only
            rw [mem_pyUnion]
            simp only [List.mem_map, List.mem_range, Bool.and_eq_true, decide_eq_true_eq]
            constructor
            · rintro (h1 | ⟨k, hk, rfl⟩)
              · exact Or.inl h1
              · exact Or.inr ⟨by omega, by omega⟩
            · rintro (h1 | ⟨h1, h2⟩)
              · exact Or.inl h1
              · exact Or.inr ⟨n - lo, by omega, by omega⟩
    · cases h
  · rw [if_neg hd] at h
    have ht : tokMembers base tok n = (pyIntParse base tok == some n) := by
      unfold tokMembers
      rw [if_neg hd]
    rw [ht]
    cases hp : pyIntParse base tok with
    | none => rw [hp] at h; cases h
    | some v =>
      rw [hp] at h
      dsimp only at h
      cases h
      dsimp only
      rw [mem_pyInsert]
      simp only [beq_iff_eq, Option.some.injEq]
      exact or_congr Iff.rfl eq_comm

/-- Folding the token steps accumulates exactly the union of the tokens'
denoted ints. -/
theorem parseIntFold_mem (base : Nat) (toks : List (List Char)) (st st' : List Nat × Nat)
    (h : toks.foldlM (parseIntStep base) st = .ok st') :
    ∀ n, n ∈ st'.1 ↔ n ∈ st.1 ∨ ∃ tok ∈ toks, tokMembers base tok n = true := by
  induction toks generalizing st with
  | nil =>
    intro n
    simp only [List.foldlM_nil] at h
    cases h
    simp
  | cons tok rest ih =>
    intro n
    rw [List.foldlM_cons] at h
    cases hs : parseIntStep base st tok with
    | error e => rw [hs] at h; cases h
    | ok st1 =>
      rw [hs] at h
      have hb : (Except.ok st1 >>= fun s => rest.foldlM (parseIntStep base) s) =
          rest.foldlM (parseIntStep base) st1 := rfl
      rw [hb] at h
      rw [ih st1 h n, parseIntStep_mem base st tok st1 hs n]
      simp only [List.mem_cons]
      constructor
      · rintro ((h1 | h1) | ⟨t, ht, h2⟩)
        · exact Or.inl h1
        · exact Or.inr ⟨tok, Or.inl rfl, h1⟩
        · exact Or.inr ⟨t, Or.inr ht, h2⟩
      · rintro (h1 | ⟨t, (rfl | ht), h2⟩)
        · exact Or.inl (Or.inl h1)
        · exact Or.inl (Or.inr h2)
        · exact Or.inr ⟨t, ht, h2⟩

/-- If some token makes the step fail from every state, the fold fails. -/
theorem parseIntFold_err (base : Nat) (toks : List (List Char)) (st : List Nat × Nat)
    (hbad : ∃ tok ∈ toks, ∀ s, ∃ e, parseIntStep base s tok = .error e) :
    ∃ e, toks.foldlM (parseIntStep base) st = .error e := by
  induction toks generalizing st with
  | nil => obtain ⟨tok, ht, _⟩ := hbad; simp at ht
  | cons tok rest ih =>
    obtain ⟨t0, ht0, hstep⟩ := hbad
    rw [List.foldlM_cons]
    cases hs : parseIntStep base st tok with
    | error e => exact ⟨e, rfl⟩
    | ok st1 =>
      rcases List.mem_cons.mp ht0 with rfl | hmem
      · obtain ⟨e, he⟩ := hstep st
        rw [he] at hs
        cases hs
      · obtain ⟨e, he⟩ := ih st1 ⟨t0, hmem, hstep⟩
        exact ⟨e, he⟩

/-- A dash token that does not split into exactly two parts fails the step
from every state. -/
theorem parseIntStep_badRange (base : Nat) (tok : List Char) (hd : '-' ∈ tok)
    (hlen : (splitOnChar '-' tok).length ≠ 2) :
    ∀ s, ∃ e, parseIntStep base s tok = .error e := by
  intro s
  rcases hsp : splitOnChar '-' tok with _ | ⟨a, _ | ⟨b, _ | ⟨c, tl⟩⟩⟩
  · exact ⟨_, by unfold parseIntStep; rw [if_pos hd, hsp]⟩
  · exact ⟨_, by unfold parseIntStep; rw [if_pos hd, hsp]⟩
  · exact absurd (by simp [hsp] : (splitOnChar '-' tok).length = 2) hlen
  · exact ⟨_, by unfold parseIntStep; rw [if_pos hd, hsp]⟩

/-- A range token with `lo >= hi` fails the step from every state. -/
theorem parseIntStep_loGeHi (base : Nat) (tok : List Char) (a b : List Char) (lo hi : Nat)
    (hd : '-' ∈ tok) (hsp : splitOnChar '-' tok = [a, b])
    (hpa : pyIntParse base a = some lo) (hpb : pyIntParse base b = some hi) (hge : lo ≥ hi) :
    ∀ s, ∃ e, parseIntStep base s tok = .error e := by
  intro s
  refine ⟨"val range must have high > low", ?_⟩
  unfold parseIntStep
  rw [if_pos hd, hsp]
  dsimp only
  rw [hpa]
  dsimp only
  rw [hpb]
  dsimp only
  rw [if_pos hge]

/-- C5: `parse_int_values` returns the union of all literals and inclusive
ranges of the space-separated input — in particular
`parse_int_values "3 5-7 9" false` yields `{3,5,6,7,9}` — and fails when a
dash token does not split into exactly two parts, when a range has
`lo >= hi`, or when the parsed-item count differs from the result's
cardinality (so `parse_int_values "3 3-5" false` fails on the overlap). -/
theorem C5_parse_int_values :
    (parse_int_values "3 5-7 9" false = .ok [3, 5, 6, 7, 9]) ∧
    (parse_int_values "3 3-5" false = .error "duplicate values in intlist") ∧
    (∀ (intlist : String) (is_hex : Bool) (l : List Nat),
      parse_int_values intlist is_hex = .ok l →
      ∀ n, n ∈ l ↔ ∃ tok ∈ splitOnChar ' ' intlist.data,
        tokMembers (if is_hex then 16 else 10) tok n = true) ∧
    (∀ (intlist : String) (is_hex : Bool),
      (∃ tok ∈ splitOnChar ' ' intlist.data, '-' ∈ tok ∧ (splitOnChar '-' tok).length ≠ 2) →
      ∃ e, parse_int_values intlist is_hex = .error e) ∧
    (∀ (intlist : String) (is_hex : Bool),
      (∃ tok ∈ splitOnChar ' ' intlist.data, ∃ a b lo hi,
        '-' ∈ tok ∧ splitOnChar '-' tok = [a, b] ∧
        pyIntParse (if is_hex then 16 else 10) a = some lo ∧
        pyIntParse (if is_hex then 16 else 10) b = some hi ∧ lo ≥ hi) →
      ∃ e, parse_int_values intlist is_hex = .error e) ∧
    (∀ (intlist : String) (is_hex : Bool) (res : List Nat) (cnt : Nat),
      (splitOnChar ' ' intlist.data).foldlM (parseIntStep (if is_hex then 16 else 10))
        ([], 0) = .ok (res, cnt) →
      res.length ≠ cnt → ∃ e, parse_int_values intlist is_hex = .error e) := by
  refine ⟨by decide, by decide, ?_, ?_, ?_, ?_⟩
  · intro intlist is_hex l h n
    unfold parse_int_values at h
    dsimp only at h
    cases hf : (splitOnChar ' ' intlist.data).foldlM
        (parseIntStep (if is_hex then 16 else 10)) ([], 0) with
    | error e => rw [hf] at h; cases h
    | ok st =>
      obtain ⟨res, cnt⟩ := st
      rw [hf] at h
      dsimp only at h
      split at h
      · cases h
      · cases h
        have hm := parseIntFold_mem (if is_hex then 16 else 10) _ _ _ hf n
        simpa using hm
  · intro intlist is_hex hex2
    obtain ⟨tok, htok, hd, hlen⟩ := hex2
    obtain ⟨e, he⟩ := parseIntFold_err (if is_hex then 16 else 10) _ ([], 0)
      ⟨tok, htok, parseIntStep_badRange _ tok hd hlen⟩
    refine ⟨e, ?_⟩
    unfold parse_int_values
    dsimp only
    rw [he]
  · intro intlist is_hex hex2
    obtain ⟨tok, htok, a, b, lo, hi, hd, hsp, hpa, hpb, hge⟩ := hex2
    obtain ⟨e, he⟩ := parseIntFold_err (if is_hex then 16 else 10) _ ([], 0)
      ⟨tok, htok, parseIntStep_loGeHi _ tok a b lo hi hd hsp hpa hpb hge⟩
    refine ⟨e, ?_⟩
    unfold parse_int_values
    dsimp only
    rw [he]
  · intro intlist is_hex res cnt hf hne
    refine ⟨"duplicate values in intlist", ?_⟩
    unfold parse_int_values
    dsimp only
    rw [hf]
    dsimp only
    rw [if_pos hne]

theorem C5_witness :
    ((6 : Nat) ∈ ([3, 5, 6, 7, 9] : List Nat) ↔
      ∃ tok ∈ splitOnChar ' ' ("3 5-7 9" : String).data, tokMembers 10 tok 6 = true) ∧
    (∃ e, parse_int_values "3-4-5" false = .error e) ∧
    (∃ e, parse_int_values "5-3" false = .error e) ∧
    (∃ e, parse_int_values "3 3-5" false = .error e) :=
  ⟨by simpa using C5_parse_int_values.2.2.1 "3 5-7 9" false [3, 5, 6, 7, 9] (by decide) 6,
   C5_parse_int_values.2.2.2.1 "3-4-5" false ⟨"3-4-5".data, by decide, by decide, by decide⟩,
   C5_parse_int_values.2.2.2.2.1 "5-3" false
     ⟨"5-3".data, by decide, "5".data, "3".data, 5, 3, by decide, by decide, by decide, by decide,
      by decide⟩,
   C5_parse_int_values.2.2.2.2.2 "3 3-5" false [3, 4, 5] 4 (by decide) (by decide)⟩

/-- Full characterization of one `check` call on a catalog tag: the record
fields of the result and the logging behavior. -/
theorem check_fields (lt : LintTests) (tag : String) (b : Bool) (lt' : LintTests)
    (hcat : tag ∈ TestSpec.tag_list) (h : lt.check tag = .ok (b, lt')) :
    lt'.tag_set = lt.tag_set ∧ lt'.tag_filters = lt.tag_filters ∧
    ((b = true ∧ tag ∈ lt.tag_set ∧ lt'.run_log = pyInsert lt.run_log tag ∧
        lt'.skip_log = lt.skip_log) ∨
     (b = false ∧ tag ∉ lt.tag_set ∧ lt'.skip_log = pyInsert lt.skip_log tag ∧
        lt'.run_log = lt.run_log)) := by
  unfold LintTests.check at h
  rw [if_neg (not_not_intro hcat)] at h
  split at h
  · cases h
    exact ⟨rfl, rfl, Or.inl ⟨rfl, by assumption, rfl, rfl⟩⟩
  · cases h
    exact ⟨rfl, rfl, Or.inr ⟨rfl, by assumption, rfl, rfl⟩⟩

/-- `checkvalue` threads the same updated instance as the underlying
`check` call. -/
theorem checkvalue_to_check (lt : LintTests) (tag : String) (value : Nat) (b : Bool)
    (lt' : LintTests) (h : lt.checkvalue tag value = .ok (b, lt')) :
    ∃ b0, lt.check tag = .ok (b0, lt') := by
  unfold LintTests.checkvalue at h
  cases hc : lt.check tag with
  | error e => rw [hc] at h; cases h
  | ok p =>
    obtain ⟨b0, lt1⟩ := p
    rw [hc] at h
    dsimp only at h
    cases b0 with
    | true =>
      rw [if_pos rfl] at h
      cases hf : lt1.tag_filters tag with
      | some f => rw [hf] at h; cases h; exact ⟨true, rfl⟩
      | none => rw [hf] at h; cases h; exact ⟨true, rfl⟩
    | false =>
      rw [if_neg (by simp)] at h
      cases h
      exact ⟨false, rfl⟩

/-- C10: `checkvalue` on an enabled catalog tag whose stored filter rejects
the value returns `false` yet still records the tag in the run log, never
the skip log. -/
theorem C10_checkvalue_rejected_logs_run (lt : LintTests) (tag : String) (value : Nat)
    (f : IntSetFilter) (hcat : tag ∈ TestSpec.tag_list) (hmem : tag ∈ lt.tag_set)
    (hfil : lt.tag_filters tag = some f) (hrej : f.accept value = false) :
    ∃ lt', lt.checkvalue tag value = .ok (false, lt') ∧ tag ∈ lt'.run_log ∧
      lt'.skip_log = lt.skip_log := by
  have hc : lt.check tag = .ok (true, { lt with run_log := pyInsert lt.run_log tag }) := by
    unfold LintTests.check
    rw [if_neg (not_not_intro hcat), if_pos hmem]
  refine ⟨{ lt with run_log := pyInsert lt.run_log tag }, ?_, ?_, rfl⟩
  · unfold LintTests.checkvalue
    rw [hc]
    dsimp only
    rw [if_pos rfl]
    have hfil1 : ({ lt with run_log := pyInsert lt.run_log tag } : LintTests).tag_filters tag
        = some f := hfil
    rw [hfil1]
    dsimp only
    rw [hrej]
  · dsimp only
    rw [mem_pyInsert]
    exact Or.inr rfl

theorem C10_witness :
    ∃ lt', LintTests.checkvalue
        { tag_set := ["cmap"],
          tag_filters := fun t => if t == "cmap" then some ⟨true, [65]⟩ else none }
        "cmap" 66 = .ok (false, lt') ∧
      "cmap" ∈ lt'.run_log ∧ lt'.skip_log = [] :=
  C10_checkvalue_rejected_logs_run
    { tag_set := ["cmap"],
      tag_filters := fun t => if t == "cmap" then some ⟨true, [65]⟩ else none }
    "cmap" 66 ⟨true, [65]⟩ (by rw [tag_list_eq]; decide) (by decide) (by decide) (by decide)

/-- A successful `check` implies the tag is a catalog tag. -/
theorem check_ok_cat (lt : LintTests) (tag : String) (p : Bool × LintTests)
    (h : lt.check tag = .ok p) : tag ∈ TestSpec.tag_list := by
  by_cases hc : tag ∈ TestSpec.tag_list
  · exact hc
  · unfold LintTests.check at h
    rw [if_pos hc] at h
    cases h

/-- `check` preserves the audit invariant: run log inside the resolved set,
skip log outside it. -/
theorem check_preserves_inv (lt : LintTests) (tag : String) (b : Bool) (lt' : LintTests)
    (h : lt.check tag = .ok (b, lt'))
    (hinv1 : ∀ t ∈ lt.run_log, t ∈ lt.tag_set) (hinv2 : ∀ t ∈ lt.skip_log, t ∉ lt.tag_set) :
    (∀ t ∈ lt'.run_log, t ∈ lt'.tag_set) ∧ (∀ t ∈ lt'.skip_log, t ∉ lt'.tag_set) := by
  obtain ⟨hts, hfl, hcase⟩ := check_fields lt tag b lt' (check_ok_cat lt tag _ h) h
  rcases hcase with ⟨hb, hmem, hrun, hskip⟩ | ⟨hb, hmem, hskip, hrun⟩
  · refine ⟨?_, ?_⟩
    · intro t ht
      rw [hrun, mem_pyInsert] at ht
      rw [hts]
      rcases ht with ht | rfl
      · exact hinv1 t ht
      · exact hmem
    · intro t ht
      rw [hskip] at ht
      rw [hts]
      exact hinv2 t ht
  · refine ⟨?_, ?_⟩
    · intro t ht
      rw [hrun] at ht
      rw [hts]
      exact hinv1 t ht
    · intro t ht
      rw [hskip, mem_pyInsert] at ht
      rw [hts]
      rcases ht with ht | rfl
      · exact hinv2 t ht
      · exact hmem

/-- Any audit-call sequence preserves the run/skip invariant. -/
theorem runAudit_inv (ops : List AuditOp) (lt lt' : LintTests)
    (h : runAudit lt ops = .ok lt')
    (hinv1 : ∀ t ∈ lt.run_log, t ∈ lt.tag_set) (hinv2 : ∀ t ∈ lt.skip_log, t ∉ lt.tag_set) :
    (∀ t ∈ lt'.run_log, t ∈ lt'.tag_set) ∧ (∀ t ∈ lt'.skip_log, t ∉ lt'.tag_set) := by
  induction ops generalizing lt with
  | nil => cases h; exact ⟨hinv1, hinv2⟩
  | cons op rest ih =>
    cases op with
    | check tag =>
      unfold runAudit at h
      cases hc : lt.check tag with
      | error e => rw [hc] at h; cases h
      | ok p =>
        obtain ⟨b, lt1⟩ := p
        rw [hc] at h
        obtain ⟨h1, h2⟩ := check_preserves_inv lt tag b lt1 hc hinv1 hinv2
        exact ih lt1 h h1 h2
    | checkvalue tag value =>
      unfold runAudit at h
      cases hc : lt.checkvalue tag value with
      | error e => rw [hc] at h; cases h
      | ok p =>
        obtain ⟨b, lt1⟩ := p
        rw [hc] at h
        obtain ⟨b0, hc0⟩ := checkvalue_to_check lt tag value b lt1 hc
        obtain ⟨h1, h2⟩ := check_preserves_inv lt tag b0 lt1 hc0 hinv1 hinv2
        exact ih lt1 h h1 h2

/-- C7: `check` fails on catalog-unknown tags; on catalog tags it returns
membership in the resolved set, logging the tag as run or skipped; the two
logs stay disjoint across any sequence of `check`/`checkvalue` calls on one
freshly built instance; and `checkvalue` is true exactly when `check` is
true and any stored filter accepts the value. -/
theorem C7_check_and_logs :
    (∀ (lt : LintTests) (tag : String), tag ∉ TestSpec.tag_list →
      lt.check tag = .error ("unrecognized tag " ++ tag)) ∧
    (∀ (lt : LintTests) (tag : String), tag ∈ TestSpec.tag_list →
      ∀ (b : Bool) (lt' : LintTests), lt.check tag = .ok (b, lt') →
        (b = true ↔ tag ∈ lt.tag_set) ∧
        (b = true → tag ∈ lt'.run_log ∧ lt'.skip_log = lt.skip_log) ∧
        (b = false → tag ∈ lt'.skip_log ∧ lt'.run_log = lt.run_log)) ∧
    (∀ (tagset : List String) (filters : String → Option IntSetFilter) (ops : List AuditOp)
        (lt' : LintTests),
      runAudit { tag_set := tagset, tag_filters := filters } ops = .ok lt' →
      ∀ t ∈ lt'.run_log, t ∉ lt'.skip_log) ∧
    (∀ (lt : LintTests) (tag : String) (value : Nat), tag ∈ TestSpec.tag_list →
      ∀ (b : Bool) (lt' : LintTests), lt.checkvalue tag value = .ok (b, lt') →
        (b = true ↔ tag ∈ lt.tag_set ∧
          ∀ f, lt.tag_filters tag = some f → f.accept value = true)) := by
  refine ⟨?_, ?_, ?_, ?_⟩
  · intro lt tag h
    unfold LintTests.check
    rw [if_pos h]
  · intro lt tag hcat b lt' h
    obtain ⟨hts, hfl, hcase⟩ := check_fields lt tag b lt' hcat h
    rcases hcase with ⟨rfl, hmem, hrun, hskip⟩ | ⟨rfl, hmem, hskip, hrun⟩
    · refine ⟨by simp [hmem], fun _ => ⟨?_, hskip⟩, ?_⟩
      · rw [hrun, mem_pyInsert]
        exact Or.inr rfl
      · intro hff
        exact absurd hff (by simp)
    · refine ⟨by simp [hmem], ?_, fun _ => ⟨?_, hrun⟩⟩
      · intro htt
        exact absurd htt (by simp)
      · rw [hskip, mem_pyInsert]
        exact Or.inr rfl
  · intro tagset filters ops lt' h t htr hts
    obtain ⟨h1, h2⟩ := runAudit_inv ops _ lt' h (by intro t ht; cases ht) (by intro t ht; cases ht)
    exact h2 t hts (h1 t htr)
  · intro lt tag value hcat b lt' h
    by_cases hmem : tag ∈ lt.tag_set
    · have hc : lt.check tag = .ok (true, { lt with run_log := pyInsert lt.run_log tag }) := by
        unfold LintTests.check
        rw [if_neg (not_not_intro hcat), if_pos hmem]
      unfold LintTests.checkvalue at h
      rw [hc] at h
      dsimp only at h
      rw [if_pos rfl] at h
      cases hf : lt.tag_filters tag with
      | some f =>
        rw [hf] at h
        dsimp only at h
        cases h
        constructor
        · intro hacc
          refine ⟨hmem, fun f' hf' => ?_⟩
          cases hf'
          exact hacc
        · rintro ⟨_, hall⟩
          exact hall f rfl
      | none =>
        rw [hf] at h
        dsimp only at h
        cases h
        constructor
        · intro _
          refine ⟨hmem, fun f' hf' => ?_⟩
          cases hf'
        · intro _
          rfl
    · have hc : lt.check tag = .ok (false, { lt with skip_log := pyInsert lt.skip_log tag }) := by
        unfold LintTests.check
        rw [if_neg (not_not_intro hcat), if_neg hmem]
      unfold LintTests.checkvalue at h
      rw [hc] at h
      dsimp only at h
      rw [if_neg (by simp)] at h
      cases h
      simp [hmem]

theorem C7_witness :
    (LintTests.check { tag_set := ["cmap"], tag_filters := fun _ => none } "nope"
      = .error "unrecognized tag nope") ∧
    ("cmap" ∈ (pyInsert ([] : List String) "cmap") ∧
      ([] : List String) = []) ∧
    ("cmap" ∉ (["head"] : List String)) :=
  ⟨C7_check_and_logs.1 { tag_set := ["cmap"], tag_filters := fun _ => none } "nope"
      (by rw [tag_list_eq]; decide),
   (C7_check_and_logs.2.1 { tag_set := ["cmap"], tag_filters := fun _ => none } "cmap"
      (by rw [tag_list_eq]; decide) true
      { tag_set := ["cmap"], tag_filters := fun _ => none, run_log := pyInsert [] "cmap",
        skip_log := [] } rfl).2.1 rfl,
   C7_check_and_logs.2.2.1 ["cmap"] (fun _ => none)
      [.check "cmap", .check "head", .checkvalue "cmap" 3]
      { tag_set := ["cmap"], tag_filters := fun _ => none, run_log := ["cmap"],
        skip_log := ["head"] } rfl "cmap" (by decide)⟩

/-- Membership in the folded result of one block:
`result := (result - touched) | enabled`. -/
theorem mem_apply_spec (ts : TestSpec) (result : List String)
    (options : String → Option IntSetFilter) (t : String) :
    t ∈ (ts.apply_spec result options).1 ↔
      (t ∈ result ∧ t ∉ ts.touched_tags) ∨ t ∈ ts.enabled_tags := by
  unfold TestSpec.apply_spec
  dsimp only
  rw [mem_pyUnion, mem_pyDiff]

/-- The folded filter map of one block: touched tags are cleared, then
enabled tags with a block filter are overwritten. -/
theorem apply_spec_options (ts : TestSpec) (result : List String)
    (options : String → Option IntSetFilter) (t : String) :
    (ts.apply_spec result options).2 t =
      if t ∈ ts.enabled_tags ∧ (ts.tag_options t).isSome then ts.tag_options t
      else if t ∈ ts.touched_tags then none else options t := by
  unfold TestSpec.apply_spec
  dsimp only
  by_cases h1 : t ∈ ts.enabled_tags <;> cases h2 : ts.tag_options t <;>
    by_cases h3 : t ∈ ts.touched_tags <;> simp [h1, h2, h3]

/-- Unfolding one accepted block of the `get_tests` fold. -/
theorem applyAccepted_cons_true (fi : FontInfo) (c : FontCondition) (s : TestSpec)
    (rest : List (FontCondition × TestSpec))
    (st : List String × (String → Option IntSetFilter)) (hc : c.accepts fi = .ok true) :
    applyAccepted fi ((c, s) :: rest) st = applyAccepted fi rest (s.apply_spec st.1 st.2) := by
  have hstep : applyAccepted fi ((c, s) :: rest) st =
      (match c.accepts fi with
       | .error e => .error e
       | .ok b => applyAccepted fi rest (if b then s.apply_spec st.1 st.2 else st)) := rfl
  rw [hstep, hc]
  rfl

theorem applyAccepted_nil (fi : FontInfo) (st : List String × (String → Option IntSetFilter)) :
    applyAccepted fi [] st = .ok st := rfl

/-- C1: applying one block computes `result := (result - touched) | enabled`
and, for filters, clears every touched tag before storing the block's
filters for its enabled tags; consequently, with two blocks both accepting
the font where the earlier enables X and the later disables X, resolution
leaves X disabled, and with the block order reversed X is enabled (last
writer wins). -/
theorem C1_apply_spec_last_writer :
    (∀ (ts : TestSpec) (result : List String) (options : String → Option IntSetFilter)
        (t : String),
      (t ∈ (ts.apply_spec result options).1 ↔
        (t ∈ result ∧ t ∉ ts.touched_tags) ∨ t ∈ ts.enabled_tags) ∧
      ((ts.apply_spec result options).2 t =
        if t ∈ ts.enabled_tags ∧ (ts.tag_options t).isSome then ts.tag_options t
        else if t ∈ ts.touched_tags then none else options t)) ∧
    (∀ (cond1 cond2 : FontCondition) (s1 s2 : TestSpec) (fi : FontInfo) (X : String),
      cond1.accepts fi = .ok true → cond2.accepts fi = .ok true →
      X ∈ s1.enabled_tags → X ∈ s2.touched_tags → X ∉ s2.enabled_tags →
      (∀ lt, LintSpec.get_tests ⟨[(cond1, s1), (cond2, s2)]⟩ fi = .ok lt →
        X ∉ lt.tag_set) ∧
      (∀ lt, LintSpec.get_tests ⟨[(cond2, s2), (cond1, s1)]⟩ fi = .ok lt →
        X ∈ lt.tag_set)) := by
  refine ⟨fun ts result options t =>
    ⟨mem_apply_spec ts result options t, apply_spec_options ts result options t⟩, ?_⟩
  intro cond1 cond2 s1 s2 fi X h1 h2 hX1 hX2t hX2e
  constructor
  · intro lt h
    unfold LintSpec.get_tests at h
    rw [applyAccepted_cons_true fi cond1 s1 _ _ h1,
        applyAccepted_cons_true fi cond2 s2 _ _ h2, applyAccepted_nil] at h
    dsimp only at h
    cases h
    dsimp only
    rw [mem_apply_spec]
    rintro (⟨_, hnt⟩ | he)
    · exact hnt hX2t
    · exact hX2e he
  · intro lt h
    unfold LintSpec.get_tests at h
    rw [applyAccepted_cons_true fi cond2 s2 _ _ h2,
        applyAccepted_cons_true fi cond1 s1 _ _ h1, applyAccepted_nil] at h
    dsimp only at h
    cases h
    dsimp only
    rw [mem_apply_spec]
    exact Or.inr hX1

theorem C1_witness :
    (LintSpec.get_tests
        ⟨[({}, ⟨["reachable"], ["reachable"], fun _ => none⟩),
          ({}, ⟨["reachable"], [], fun _ => none⟩)]⟩ {}).map
      (fun lt => decide ("reachable" ∈ lt.tag_set)) = .ok false ∧
    (LintSpec.get_tests
        ⟨[({}, ⟨["reachable"], [], fun _ => none⟩),
          ({}, ⟨["reachable"], ["reachable"], fun _ => none⟩)]⟩ {}).map
      (fun lt => decide ("reachable" ∈ lt.tag_set)) = .ok true := by
  constructor
  · cases hq : LintSpec.get_tests
        ⟨[({}, ⟨["reachable"], ["reachable"], fun _ => none⟩),
          ({}, ⟨["reachable"], [], fun _ => none⟩)]⟩ ({} : FontInfo) with
    | error e =>
      exact absurd hq (by intro hh; cases hh)
    | ok lt =>
      have hn := (C1_apply_spec_last_writer.2 {} {}
          ⟨["reachable"], ["reachable"], fun _ => none⟩
          ⟨["reachable"], [], fun _ => none⟩ {} "reachable"
          rfl rfl (by decide) (by decide) (by decide)).1 lt hq
      dsimp only [Except.map]
      rw [decide_eq_false hn]
  · cases hq : LintSpec.get_tests
        ⟨[({}, ⟨["reachable"], [], fun _ => none⟩),
          ({}, ⟨["reachable"], ["reachable"], fun _ => none⟩)]⟩ ({} : FontInfo) with
    | error e =>
      exact absurd hq (by intro hh; cases hh)
    | ok lt =>
      have hn := (C1_apply_spec_last_writer.2 {} {}
          ⟨["reachable"], ["reachable"], fun _ => none⟩
          ⟨["reachable"], [], fun _ => none⟩ {} "reachable"
          rfl rfl (by decide) (by decide) (by decide)).2 lt hq
      dsimp only [Except.map]
      rw [decide_eq_true hn]

/-- A safe slot never raises during evaluation. -/
theorem evalSlot_safe_ok (slot : Option CondTest) (hs : slotSafe slot = true)
    (val : Option String) : ∃ b, FontCondition.evalSlot slot val = .ok b := by
  cases slot with
  | none => exact ⟨true, rfl⟩
  | some t =>
    cases t with
    | literal s =>
      have hstep : FontCondition.evalSlot (some (.literal s)) val =
          (if s.isEmpty then .ok true else .ok (val == some s)) := rfl
      by_cases he : s.isEmpty
      · exact ⟨true, by rw [hstep, if_pos he]⟩
      · exact ⟨val == some s, by rw [hstep, if_neg he]⟩
    | isRel o => exact ⟨_, rfl⟩
    | inRel alts => exact ⟨_, rfl⟩
    | likeRel p => simp [slotSafe] at hs
    | numRel f o => simp [slotSafe] at hs

/-- The field loop never raises when every slot is safe. -/
theorem acceptsFields_safe (pairs : List (Option CondTest × Option String))
    (hs : ∀ p ∈ pairs, slotSafe p.1 = true) : ∃ b, acceptsFields pairs = .ok b := by
  induction pairs with
  | nil => exact ⟨true, rfl⟩
  | cons p rest ih =>
    obtain ⟨slot, val⟩ := p
    obtain ⟨b1, hb1⟩ := evalSlot_safe_ok slot (hs (slot, val) (List.mem_cons_self _ _)) val
    have hstep : acceptsFields ((slot, val) :: rest) =
        (match FontCondition.evalSlot slot val with
         | .error e => .error e
         | .ok b => if b then acceptsFields rest else .ok false) := rfl
    cases b1 with
    | true =>
      obtain ⟨b, hb⟩ := ih (fun q hq => hs q (List.mem_cons_of_mem _ hq))
      exact ⟨b, by rw [hstep, hb1]; exact hb⟩
    | false => exact ⟨false, by rw [hstep, hb1]; rfl⟩

/-- A condition whose slots are all safe accepts or rejects any font
without raising. -/
theorem accepts_safe (fc : FontCondition) (hs : fc.condSafe = true) (fi : FontInfo) :
    ∃ b, fc.accepts fi = .ok b := by
  unfold FontCondition.condSafe at hs
  simp only [Bool.and_eq_true] at hs
  obtain ⟨⟨⟨⟨⟨⟨⟨⟨h1, h2⟩, h3⟩, h4⟩, h5⟩, h6⟩, h7⟩, h8⟩, h9⟩ := hs
  unfold FontCondition.accepts
  apply acceptsFields_safe
  intro p hp
  fin_cases hp <;> assumption

/-- The `get_tests` fold never raises when every block's condition is safe. -/
theorem applyAccepted_safe (fi : FontInfo) (specs : List (FontCondition × TestSpec))
    (hs : ∀ p ∈ specs, p.1.condSafe = true) :
    ∀ st, ∃ st', applyAccepted fi specs st = .ok st' := by
  induction specs with
  | nil => exact fun st => ⟨st, rfl⟩
  | cons p rest ih =>
    intro st
    obtain ⟨c, s⟩ := p
    obtain ⟨b, hb⟩ := accepts_safe c (hs (c, s) (List.mem_cons_self _ _)) fi
    have hstep : applyAccepted fi ((c, s) :: rest) st =
        (match c.accepts fi with
         | .error e => .error e
         | .ok b => applyAccepted fi rest (if b then s.apply_spec st.1 st.2 else st)) := rfl
    obtain ⟨st', hst⟩ := ih (fun q hq => hs q (List.mem_cons_of_mem _ hq))
      (if b then s.apply_spec st.1 st.2 else st)
    exact ⟨st', by rw [hstep, hb]; exact hst⟩

/-- C3 (amended): resolution is NOT total for every successfully parsed rule
list — numeric relations coerce attribute values with `float()` at resolve
time and `like` requires a string, so those can raise — but for every rule
list whose conditions use only literal, `is`, and `in` constraints,
resolving against any font never raises. -/
theorem C3_safe_conditions_resolution (ls : LintSpec) (fi : FontInfo)
    (hsafe : ∀ p ∈ ls.specs, p.1.condSafe = true) :
    ∃ lt, ls.get_tests fi = .ok lt := by
  unfold LintSpec.get_tests
  obtain ⟨st', hst⟩ := applyAccepted_safe fi ls.specs hsafe (TestSpec.tag_list, fun _ => none)
  rw [hst]
  exact ⟨_, rfl⟩

/-- C3 counterexample: the spec text `version == 2.0; enable name` parses
successfully, yet resolving the built rule list against a font whose
version is the non-numeric string `abc` raises (float coercion), refuting
the claim that resolution can never fail after a successful parse. -/
theorem C3_counterexample :
    (parse_spec c3text).map (fun ls => (ls.get_tests c3font).toOption.isSome) = .ok false := by
  decide

theorem C3_witness :
    ∃ lt, c3SafeLs.get_tests {} = .ok lt :=
  C3_safe_conditions_resolution c3SafeLs {} (by decide)

/-- C2 counterexample: the claim's exact spec text parses, but resolving it
against the claimed font does NOT succeed — `==` coerces both sides with
`float()`, and `"Foo"` is not numeric. -/
theorem C2_counterexample :
    (parse_spec c2text).map (fun ls => (ls.get_tests c2font).toOption.isSome) = .ok false := by
  decide

/-- C2 (amended): the scenario as written raises a float-conversion error at
resolve time; with `is` (string equality) in place of `==` and a font whose
attributes carry the quoted literals, resolution succeeds and yields the
full catalog minus `reachable` minus the whole `name` subtree — in
particular `name/version` does NOT remain enabled: the later block's
`disable name` removes it (last writer wins). -/
theorem C2_end_to_end_amended :
    ((parse_spec c2text).toOption.isSome = true) ∧
    (((parse_spec c2text).toOption.getD {}).get_tests c2font =
      .error "could not convert string to float: Foo") ∧
    (((parse_spec c2textAmended).bind (fun ls => ls.get_tests c2fontAmended)).map
        (fun lt => lt.tag_set) =
      .ok (TestSpec.tag_list.filter (fun t => !(pyStartsWith t "name") && t != "reachable"))) ∧
    (((parse_spec c2textAmended).bind (fun ls => ls.get_tests c2fontAmended)).map
        (fun lt => decide ("name/version" ∈ lt.tag_set)) = .ok false) := by
  refine ⟨by decide, by rfl, by decide, by decide⟩

/-- C6: `enable` with a relation fails on a multi-tag scope; the target
tag's catalog entry must declare a relation pattern matching the relation
and an arg-type pattern matching the arg type, else failure; otherwise the
argument is parsed with the integer-set parser (`cp` hex, `gid` decimal)
and an `IntSetFilter` is stored for the tag, accept-if-member unless the
relation word is `except`. -/
theorem C6_enable_options :
    (∀ (ts : TestSpec) (tag rel : String) (atyp arg : Option String) (tags : List String),
      TestSpec._get_tag_set tag = .ok tags → 1 < tags.length →
      ts.enable tag (some rel) atyp arg =
        .error "options cannot be applied to multiple tags") ∧
    (∀ (ts : TestSpec) (t rel : String) (atyp arg : Option String) (e : TagEntry),
      TestSpec.tagDataLookup t = some e → e.relation = none →
      ts._set_enable_options t rel atyp arg =
        .error ("tag " ++ t ++ " does not allow options")) ∧
    (∀ (ts : TestSpec) (t rel : String) (atyp arg : Option String) (e : TagEntry) (rp : String),
      TestSpec.tagDataLookup t = some e → e.relation = some rp → reMatchAlt rp rel = false →
      ts._set_enable_options t rel atyp arg =
        .error ("tag " ++ t ++ " does not allow relation " ++ rel)) ∧
    (∀ (ts : TestSpec) (t rel atype : String) (arg : Option String) (e : TagEntry)
        (rp ap : String),
      TestSpec.tagDataLookup t = some e → e.relation = some rp → reMatchAlt rp rel = true →
      e.argType = some ap → reMatchAlt ap atype = false →
      ts._set_enable_options t rel (some atype) arg =
        .error ("tag " ++ t ++ " and relation " ++ rel ++ " does not allow arg type " ++ atype)) ∧
    (∀ (ts : TestSpec) (t rel atype arg : String) (e : TagEntry) (rp ap : String)
        (S : List Nat),
      TestSpec.tagDataLookup t = some e → e.relation = some rp → reMatchAlt rp rel = true →
      e.argType = some ap → reMatchAlt ap atype = true → (atype = "cp" ∨ atype = "gid") →
      parse_int_values arg (atype == "cp") = .ok S →
      ∃ ts', ts._set_enable_options t rel (some atype) (some arg) = .ok ts' ∧
        ts'.tag_options t = some ⟨rel != "except", S⟩ ∧
        ts'.touched_tags = ts.touched_tags ∧ ts'.enabled_tags = ts.enabled_tags) := by
  refine ⟨?_, ?_, ?_, ?_, ?_⟩
  · intro ts tag rel atyp arg tags hget hlen
    unfold TestSpec.enable
    rw [hget]
    dsimp only
    rw [if_pos hlen]
  · intro ts t rel atyp arg e hlook hrel
    unfold TestSpec._set_enable_options
    rw [hlook]
    dsimp only
    rw [hrel]
  · intro ts t rel atyp arg e rp hlook hrel hm
    unfold TestSpec._set_enable_options
    rw [hlook]
    dsimp only
    rw [hrel]
    dsimp only
    rw [hm]
    rfl
  · intro ts t rel atype arg e rp ap hlook hrel hm hat ham
    unfold TestSpec._set_enable_options
    rw [hlook]
    dsimp only
    rw [hrel]
    dsimp only
    rw [hm, if_neg (by decide)]
    rw [hat]
    dsimp only
    rw [ham]
    rfl
  · intro ts t rel atype arg e rp ap S hlook hrel hm hat ham hkind hparse
    refine ⟨{ ts with tag_options := fun u =>
        if u == t then some ⟨rel != "except", S⟩ else ts.tag_options u }, ?_, ?_, rfl, rfl⟩
    · unfold TestSpec._set_enable_options
      rw [hlook]
      dsimp only
      rw [hrel]
      dsimp only
      rw [hm, if_neg (by decide)]
      rw [hat]
      dsimp only
      rw [ham, if_neg (by decide)]
      have hk : (atype == "cp" || atype == "gid") = true := by
        rcases hkind with rfl | rfl <;> decide
      rw [if_pos hk]
      rw [hparse]
    · dsimp only
      rw [beq_self_eq_true]
      rfl

theorem C6_witness :
    (TestSpec.enable {} "head" (some "except") (some "cp") (some "20") =
      .error "options cannot be applied to multiple tags") ∧
    (TestSpec._set_enable_options {} "name/copyright" "except" (some "cp") (some "20") =
      .error "tag name/copyright does not allow options") ∧
    (TestSpec._set_enable_options {} "cmap/script_required" "weird" (some "cp") (some "20") =
      .error "tag cmap/script_required does not allow relation weird") ∧
    (TestSpec._set_enable_options {} "cmap/script_required" "except" (some "gid") (some "20") =
      .error "tag cmap/script_required and relation except does not allow arg type gid") ∧
    (∃ ts', TestSpec._set_enable_options {} "cmap/script_required" "except" (some "cp")
        (some "41-5A") = .ok ts' ∧
      ts'.tag_options "cmap/script_required" =
        some ⟨("except" : String) != "except", (List.range 26).map (65 + ·)⟩ ∧
      ts'.touched_tags = ({} : TestSpec).touched_tags ∧
      ts'.enabled_tags = ({} : TestSpec).enabled_tags) :=
  ⟨C6_enable_options.1 {} "head" "except" (some "cp") (some "20")
      (TestSpec.tag_list.filter (fun c => pyStartsWith c "head")) (by decide) (by decide),
   C6_enable_options.2.1 {} "name/copyright" "except" (some "cp") (some "20")
      ⟨"name/copyright", none, none, none⟩ (by decide) rfl,
   C6_enable_options.2.2.1 {} "cmap/script_required" "weird" (some "cp") (some "20")
      ⟨"cmap/script_required", some "except|only", some "cp", none⟩ "except|only"
      (by decide) rfl (by decide),
   C6_enable_options.2.2.2.1 {} "cmap/script_required" "except" "gid" (some "20")
      ⟨"cmap/script_required", some "except|only", some "cp", none⟩ "except|only" "cp"
      (by decide) rfl (by decide) rfl (by decide),
   C6_enable_options.2.2.2.2 {} "cmap/script_required" "except" "cp" "41-5A"
      ⟨"cmap/script_required", some "except|only", some "cp", none⟩ "except|only" "cp"
      ((List.range 26).map (65 + ·))
      (by decide) rfl (by decide) rfl (by decide) (Or.inl rfl) (by decide)⟩

/-- `firstMatchPos` returns a position within the string at which the
pattern is a prefix of the remainder. -/
theorem firstMatchPos_sound (pat : List Char) :
    ∀ (t : List Char) (i : Nat), firstMatchPos pat t = some i →
      i ≤ t.length ∧ pat.isPrefixOf (t.drop i) = true := by
  intro t
  induction t with
  | nil =>
    intro i h
    unfold firstMatchPos at h
    split at h
    · cases h
      rename_i hp
      refine ⟨Nat.le_refl 0, ?_⟩
      rw [List.isEmpty_iff.mp hp]
      rfl
    · cases h
  | cons c cs ih =>
    intro i h
    unfold firstMatchPos at h
    split at h
    · cases h
      rename_i hpre
      exact ⟨Nat.zero_le _, hpre⟩
    · rw [Option.map_eq_some'] at h
      obtain ⟨j, hj, rfl⟩ := h
      obtain ⟨h1, h2⟩ := ih j hj
      refine ⟨by simpa using Nat.succ_le_succ h1, ?_⟩
      rw [List.drop_succ_cons]
      exact h2

/-- A boolean prefix gives slice equality. -/
theorem isPrefixOf_take (pat l : List Char) (h : pat.isPrefixOf l = true) :
    l.take pat.length = pat :=
  ( List.prefix_iff_eq_take.mp ( List.isPrefixOf_iff_prefix.mp h)).symm

/-- The code's first-occurrence segment test implies a delimited occurrence
(the one it found). -/
theorem segMatchFirst_imp_delimOcc (t s : List Char) (h : segMatchFirst t s = true) :
    delimOccB t s = true := by
  unfold segMatchFirst at h
  cases hf : firstMatchPos s t with
  | none => rw [hf] at h; cases h
  | some ix =>
    rw [hf] at h
    dsimp only at h
    obtain ⟨hle, hpre⟩ := firstMatchPos_sound s t ix hf
    have hlen : ix + s.length ≤ t.length := by
      have h1 := ( List.isPrefixOf_iff_prefix.mp hpre).length_le
      rw [List.length_drop] at h1
      omega
    have hsl : sliceL t ix s.length = s := by
      unfold sliceL
      exact isPrefixOf_take s (t.drop ix) hpre
    unfold delimOccB
    rw [List.any_eq_true]
    refine ⟨ix, List.mem_range.mpr (by omega), ?_⟩
    rw [Bool.and_eq_true, Bool.and_eq_true]
    refine ⟨⟨decide_eq_true hlen, ?_⟩, ?_⟩
    · rw [hsl]
      exact beq_self_eq_true s
    · exact h

/-- Any in-bounds delimiter-bounded slice is enumerated by `delimSlices`. -/
theorem mem_delimSlices (t : List Char) (j L : Nat) (hle : j + L ≤ t.length)
    (hb : boundsOK t j L = true) : sliceL t j L ∈ delimSlices t := by
  unfold delimSlices
  rw [List.mem_map]
  refine ⟨(j, L), ?_, rfl⟩
  rw [List.mem_filter]
  refine ⟨?_, hb⟩
  rw [List.mem_flatMap]
  exact ⟨j, List.mem_range.mpr (by omega),
    List.mem_map.mpr ⟨L, List.mem_range.mpr (by omega), rfl⟩⟩

set_option maxHeartbeats 4000000 in
/-- Catalog fact: on every catalog tag, the code's first-occurrence test
accepts every delimiter-bounded slice of the tag. -/
theorem delimSlices_all_segMatch :
    tagListLit.all (fun t => (delimSlices t.data).all (fun s => segMatchFirst t.data s)) = true := by
  decide

/-- On catalog tags, a delimited occurrence anywhere implies the code's
first-occurrence test succeeds. -/
theorem delimOcc_imp_segMatchFirst (t : String) (ht : t ∈ TestSpec.tag_list) (s : List Char)
    (h : delimOccB t.data s = true) : segMatchFirst t.data s = true := by
  unfold delimOccB at h
  rw [List.any_eq_true] at h
  obtain ⟨j, hjr, hc⟩ := h
  rw [Bool.and_eq_true, Bool.and_eq_true] at hc
  obtain ⟨⟨hd, hsl⟩, hb⟩ := hc
  have hle : j + s.length ≤ t.data.length := of_decide_eq_true hd
  have heq : sliceL t.data j s.length = s := eq_of_beq hsl
  have hmem0 := mem_delimSlices t.data j s.length hle hb
  rw [heq] at hmem0
  rw [tag_list_eq] at ht
  have hall := List.all_eq_true.mp delimSlices_all_segMatch t ht
  exact List.all_eq_true.mp hall s hmem0

/-- On catalog tags, the code's first-occurrence segment test coincides
with "occurs as a `/`- or `_`-delimited segment anywhere". -/
theorem segMatch_eq_delimOcc (t : String) (ht : t ∈ TestSpec.tag_list) (s : List Char) :
    segMatchFirst t.data s = delimOccB t.data s := by
  cases h1 : segMatchFirst t.data s with
  | true => exact (segMatchFirst_imp_delimOcc t.data s h1).symm
  | false =>
    cases h2 : delimOccB t.data s with
    | true =>
      have := delimOcc_imp_segMatchFirst t ht s h2
      rw [h1] at this
      cases this
    | false => rfl

/-- The search loop returns its accumulator when nothing matches. -/
theorem findUnique_no_match (tag : String) (l : List String) (acc : Option String)
    (h : ∀ u ∈ l, segMatchFirst u.data tag.data = false) :
    findUniqueTag tag l acc = .ok acc := by
  induction l generalizing acc with
  | nil => rfl
  | cons hd tl ih =>
    unfold findUniqueTag
    rw [if_neg (by simp [h hd (List.mem_cons_self _ _)])]
    exact ih acc (fun u hu => h u (List.mem_cons_of_mem _ hu))

/-- With a match already recorded, any further match raises. -/
theorem findUnique_second_match (tag : String) (l : List String) (T0 : String)
    (h : ∃ u ∈ l, segMatchFirst u.data tag.data = true) :
    findUniqueTag tag l (some T0) = .error ("multiple matches for partial tag " ++ tag) := by
  induction l with
  | nil => obtain ⟨u, hu, _⟩ := h; cases hu
  | cons hd tl ih =>
    by_cases hh : segMatchFirst hd.data tag.data = true
    · unfold findUniqueTag
      rw [if_pos hh]
    · obtain ⟨u, hu, hum⟩ := h
      rcases List.mem_cons.mp hu with rfl | hut
      · exact absurd hum hh
      · unfold findUniqueTag
        rw [if_neg hh]
        exact ih ⟨u, hut, hum⟩

/-- With exactly one matching catalog tag, the search returns it. -/
theorem findUnique_unique (tag : String) (l : List String) (T : String)
    (hT : T ∈ l) (hm : segMatchFirst T.data tag.data = true)
    (huniq : ∀ u ∈ l, segMatchFirst u.data tag.data = true → u = T) (hnd : l.Nodup) :
    findUniqueTag tag l none = .ok (some T) := by
  induction l with
  | nil => cases hT
  | cons hd tl ih =>
    obtain ⟨hhd, htl⟩ := List.nodup_cons.mp hnd
    by_cases hh : segMatchFirst hd.data tag.data = true
    · have he : hd = T := huniq hd (List.mem_cons_self _ _) hh
      subst he
      unfold findUniqueTag
      rw [if_pos hh]
      have hno : ∀ u ∈ tl, segMatchFirst u.data tag.data = false := by
        intro u hu
        cases hc : segMatchFirst u.data tag.data with
        | false => rfl
        | true =>
          have hue : u = hd := huniq u (List.mem_cons_of_mem _ hu) hc
          exact absurd (hue ▸ hu) hhd
      exact findUnique_no_match tag tl (some hd) hno
    · have hTt : T ∈ tl := by
        rcases List.mem_cons.mp hT with rfl | h2
        · exact absurd hm hh
        · exact h2
      unfold findUniqueTag
      rw [if_neg hh]
      exact ih hTt (fun u hu hm2 => huniq u (List.mem_cons_of_mem _ hu) hm2) htl

/-- With two distinct matching catalog tags, the search raises. -/
theorem findUnique_two (tag : String) (l : List String) (T1 T2 : String)
    (h1 : T1 ∈ l) (h2 : T2 ∈ l) (hne : T1 ≠ T2)
    (hm1 : segMatchFirst T1.data tag.data = true)
    (hm2 : segMatchFirst T2.data tag.data = true) :
    findUniqueTag tag l none = .error ("multiple matches for partial tag " ++ tag) := by
  induction l with
  | nil => cases h1
  | cons hd tl ih =>
    by_cases hh : segMatchFirst hd.data tag.data = true
    · unfold findUniqueTag
      rw [if_pos hh]
      have hex : ∃ u ∈ tl, segMatchFirst u.data tag.data = true := by
        by_cases he1 : T1 = hd
        · rcases List.mem_cons.mp h2 with he2 | h2t
          · exact absurd (he1.trans he2.symm) hne
          · exact ⟨T2, h2t, hm2⟩
        · rcases List.mem_cons.mp h1 with he1x | h1t
          · exact absurd he1x he1
          · exact ⟨T1, h1t, hm1⟩
      exact findUnique_second_match tag tl hd hex
    · have h1t : T1 ∈ tl := by
        rcases List.mem_cons.mp h1 with rfl | h
        · exact absurd hm1 hh
        · exact h
      have h2t : T2 ∈ tl := by
        rcases List.mem_cons.mp h2 with rfl | h
        · exact absurd hm2 hh
        · exact h
      unfold findUniqueTag
      rw [if_neg hh]
      exact ih h1t h2t

/-- C4 counterexample: `_get_tag_set` on the exact catalog tag
`name/license` also returns `name/license_url`, which is neither the tag
nor a tag with `name/license` as a path prefix — the code expands scopes by
plain string prefix, not by path subtree. -/
theorem C4_counterexample :
    TestSpec._get_tag_set "name/license" = .ok ["name/license", "name/license_url"] ∧
    ("name/license_url" : String) ≠ "name/license" ∧
    pyStartsWith "name/license_url" ("name/license" ++ "/") = false := by
  refine ⟨by decide, by decide, by decide⟩

/-- C4 (amended): scope resolution returns every catalog tag having the
resolved tag as a PLAIN STRING prefix; on this catalog that is the tag plus
its path subtree for every tag except `name/license` and `name/designer`
(whose siblings `name/license_url` / `name/designer_url` are also pulled
in).  A non-catalog string resolves through the unique catalog tag
containing it as a `/`- or `_`-delimited segment, failing with an
unknown-tag error on zero matches and an ambiguity error on two or more;
and the `cmap` ⊇ `cmap/tables` ⊇ `cmap/tables/missing` chain holds. -/
theorem C4_get_tag_set_amended :
    (∀ tag, tag ∈ TestSpec.tag_list →
      TestSpec._get_tag_set tag =
        .ok (TestSpec.tag_list.filter (fun c => pyStartsWith c tag))) ∧
    (∀ q ∈ TestSpec.tag_list, q ≠ "name/license" → q ≠ "name/designer" →
      ∀ t ∈ TestSpec.tag_list,
        pyStartsWith t q = (t == q || pyStartsWith t (q ++ "/"))) ∧
    (∀ tag : String, tag ∉ TestSpec.tag_list →
      ∀ T, T ∈ TestSpec.tag_list → delimOccB T.data tag.data = true →
      (∀ u ∈ TestSpec.tag_list, delimOccB u.data tag.data = true → u = T) →
      TestSpec._get_tag_set tag =
        .ok (TestSpec.tag_list.filter (fun c => pyStartsWith c T))) ∧
    (∀ tag : String, tag ∉ TestSpec.tag_list →
      (∀ u ∈ TestSpec.tag_list, delimOccB u.data tag.data = false) →
      TestSpec._get_tag_set tag = .error ("unknown tag: " ++ tag)) ∧
    (∀ tag : String, tag ∉ TestSpec.tag_list →
      ∀ T1 T2, T1 ∈ TestSpec.tag_list → T2 ∈ TestSpec.tag_list → T1 ≠ T2 →
      delimOccB T1.data tag.data = true → delimOccB T2.data tag.data = true →
      TestSpec._get_tag_set tag = .error ("multiple matches for partial tag " ++ tag)) ∧
    (∃ A B C, TestSpec._get_tag_set "cmap" = .ok A ∧
      TestSpec._get_tag_set "cmap/tables" = .ok B ∧
      TestSpec._get_tag_set "cmap/tables/missing" = .ok C ∧
      (∀ x ∈ C, x ∈ B) ∧ (∀ x ∈ B, x ∈ A)) := by
  have hexact : ∀ tag, tag ∈ TestSpec.tag_list →
      TestSpec._get_tag_set tag =
        .ok (TestSpec.tag_list.filter (fun c => pyStartsWith c tag)) := by
    intro tag h
    unfold TestSpec._get_tag_set
    rw [if_pos h]
  refine ⟨hexact, ?_, ?_, ?_, ?_, ?_⟩
  · rw [tag_list_eq]
    decide
  · intro tag htag T hT hTd huniq
    have hseg : segMatchFirst T.data tag.data = true := delimOcc_imp_segMatchFirst T hT _ hTd
    have hnm : ∀ u ∈ TestSpec.tag_list, segMatchFirst u.data tag.data = true → u = T :=
      fun u hu hs => huniq u hu (by rw [← segMatch_eq_delimOcc u hu]; exact hs)
    have hfu := findUnique_unique tag TestSpec.tag_list T hT hseg hnm tagList_nodup
    unfold TestSpec._get_tag_set
    rw [if_neg htag, hfu]
  · intro tag htag hzero
    have hno : ∀ u ∈ TestSpec.tag_list, segMatchFirst u.data tag.data = false := by
      intro u hu
      rw [segMatch_eq_delimOcc u hu]
      exact hzero u hu
    unfold TestSpec._get_tag_set
    rw [if_neg htag, findUnique_no_match tag TestSpec.tag_list none hno]
  · intro tag htag T1 T2 h1 h2 hne hd1 hd2
    have hfu := findUnique_two tag TestSpec.tag_list T1 T2 h1 h2 hne
      (delimOcc_imp_segMatchFirst T1 h1 _ hd1) (delimOcc_imp_segMatchFirst T2 h2 _ hd2)
    unfold TestSpec._get_tag_set
    rw [if_neg htag, hfu]
  · refine ⟨_, _, _, hexact "cmap" (by rw [tag_list_eq]; decide),
      hexact "cmap/tables" (by rw [tag_list_eq]; decide),
      hexact "cmap/tables/missing" (by rw [tag_list_eq]; decide), ?_, ?_⟩
    · rw [tag_list_eq]
      decide
    · rw [tag_list_eq]
      decide

theorem C4_witness :
    (TestSpec._get_tag_set "cmap" =
      .ok (TestSpec.tag_list.filter (fun c => pyStartsWith c "cmap"))) ∧
    (pyStartsWith "cmap/tables" "cmap" =
      (("cmap/tables" : String) == "cmap" || pyStartsWith "cmap/tables" ("cmap" ++ "/"))) ∧
    (TestSpec._get_tag_set "fstype" =
      .ok (TestSpec.tag_list.filter (fun c => pyStartsWith c "head/os2/fstype"))) ∧
    (TestSpec._get_tag_set "zzz" = .error ("unknown tag: " ++ "zzz")) ∧
    (TestSpec._get_tag_set "linegap" =
      .error ("multiple matches for partial tag " ++ "linegap")) :=
  ⟨C4_get_tag_set_amended.1 "cmap" (by rw [tag_list_eq]; decide),
   C4_get_tag_set_amended.2.1 "cmap" (by rw [tag_list_eq]; decide) (by decide) (by decide)
     "cmap/tables" (by rw [tag_list_eq]; decide),
   C4_get_tag_set_amended.2.2.1 "fstype" (by rw [tag_list_eq]; decide) "head/os2/fstype"
     (by rw [tag_list_eq]; decide) (by decide)
     (by rw [tag_list_eq]; decide),
   C4_get_tag_set_amended.2.2.2.1 "zzz" (by rw [tag_list_eq]; decide)
     (by rw [tag_list_eq]; decide),
   C4_get_tag_set_amended.2.2.2.2.1 "linegap" (by rw [tag_list_eq]; decide)
     "head/hhea/linegap" "head/vhea/linegap" (by rw [tag_list_eq]; decide)
     (by rw [tag_list_eq]; decide) (by decide) (by decide) (by decide)⟩
